import Mathlib

/-! # Plugin resource client of go-crisp-api

A shallow embedding of `src/crisp/plugin_connect.go` and
`src/crisp/plugin_subscription.go`.

* Go `string` and `[]byte` values are lists of byte values (`GoString`).
* A Go pointer `*T` is an `Option T`; a nil pointer is `none`.
* The shared client (`service.client`) is a parameter: its two methods
  `NewRequest` and `Do` are arbitrary state-passing functions.
* The functions of the Go standard library the source calls (`fmt.Sprintf`,
  `time.Time.UTC`, `time.Time.MarshalText`, `url.QueryEscape`) and their
  inverses (`url.QueryUnescape`, the RFC 3339 parser of package `time`) are
  embedded from the library sources, and so is the string encoder of
  `encoding/json`, with which a request body is serialized.
-/

set_option autoImplicit false

namespace Crisp

/-! ## Strings -/

/-- A Go `string` (or `[]byte`): its sequence of bytes, each a value below 256. -/
abbrev GoString := List Nat

/-- The bytes of an ASCII literal. -/
def str (s : String) : GoString := s.toList.map Char.toNat

/-- A Go `error` value, represented by its message. -/
structure GoError where
  msg : GoString
deriving DecidableEq, Repr

/-! ## Package fmt -/

namespace fmt

/-- Digit loop of `fmt.fmtInteger` in base 10 for an unsigned value: while
`u >= 10` the last digit is written in front of the digits produced so far and
`u` is divided by ten; the remaining `u` is the leading digit. The first
argument bounds the number of iterations. -/
def fmtIntegerLoop : Nat → Nat → GoString → GoString
  | 0, u, buf => (48 + u) :: buf
  | fuel + 1, u, buf =>
    if u ≥ 10 then fmtIntegerLoop fuel (u / 10) ((48 + u % 10) :: buf)
    else (48 + u) :: buf

/-- The verb `%d` of `fmt.Sprintf` applied to an unsigned integer. -/
def fmtUint (u : Nat) : GoString := fmtIntegerLoop u u []

/-- The canonical decimal rendering of a natural number: `0` for zero, else
the decimal digits of the number, the most significant first and not a zero. -/
def canonicalDecimal (n : Nat) : GoString :=
  if n = 0 then [48] else (Nat.digits 10 n).reverse.map (fun d => 48 + d)

end fmt

/-! ## Package net/url -/

namespace url

/-- Go `ishex`. -/
def ishex (c : Nat) : Bool :=
  (48 ≤ c && c ≤ 57) || (97 ≤ c && c ≤ 102) || (65 ≤ c && c ≤ 70)

/-- Go `unhex`. -/
def unhex (c : Nat) : Nat :=
  if 48 ≤ c ∧ c ≤ 57 then c - 48
  else if 97 ≤ c ∧ c ≤ 102 then c - 97 + 10
  else if 65 ≤ c ∧ c ≤ 70 then c - 65 + 10
  else 0

/-- Go `shouldEscape(c, encodeQueryComponent)`: letters, digits and the marks
`-` `_` `.` `~` are kept, every other byte is escaped. -/
def shouldEscape (c : Nat) : Bool :=
  if (97 ≤ c ∧ c ≤ 122) ∨ (65 ≤ c ∧ c ≤ 90) ∨ (48 ≤ c ∧ c ≤ 57) then false
  else if c = 45 ∨ c = 95 ∨ c = 46 ∨ c = 126 then false
  else true

/-- The table `upperhex = "0123456789ABCDEF"`. -/
def upperhex : GoString := str "0123456789ABCDEF"

/-- What `escape(s, encodeQueryComponent)` writes for one byte. -/
def escapeByte (c : Nat) : GoString :=
  if c = 32 then [43]
  else if shouldEscape c then [37, upperhex.getD (c / 16) 0, upperhex.getD (c % 16) 0]
  else [c]

/-- Go `url.QueryEscape`. -/
def QueryEscape (s : GoString) : GoString :=
  match s with
  | [] => []
  | c :: rest => escapeByte c ++ QueryEscape rest

/-- Go `url.QueryUnescape` (`unescape(s, encodeQueryComponent)`): `%XX`
becomes the byte with that hexadecimal value, `+` a space, and a `%` that is
not followed by two hexadecimal digits is an `EscapeError`. -/
def QueryUnescape (s : GoString) : Except GoError GoString :=
  match s with
  | [] => .ok []
  | 37 :: a :: b :: rest =>
    if ishex a && ishex b then
      match QueryUnescape rest with
      | .ok t => .ok ((unhex a * 16 + unhex b) :: t)
      | .error e => .error e
    else .error ⟨str "invalid URL escape " ++ [37, a, b]⟩
  | 37 :: rest => .error ⟨str "invalid URL escape " ++ 37 :: rest⟩
  | 43 :: rest =>
    match QueryUnescape rest with
    | .ok t => .ok (32 :: t)
    | .error e => .error e
  | c :: rest =>
    match QueryUnescape rest with
    | .ok t => .ok (c :: t)
    | .error e => .error e

end url

/-! ## Packages unicode/utf8 and encoding/json -/

namespace json

/-- Go `utf8.RuneError`, the rune U+FFFD. -/
def RuneError : Nat := 65533

/-- The table `first` of package `unicode/utf8`, for the lead bytes of the
sequences of more than one byte: the size of the sequence and the range the
second byte must be in. ASCII bytes and bytes that start no sequence have no
entry. -/
def first (b : Nat) : Option (Nat × Nat × Nat) :=
  if 194 ≤ b ∧ b ≤ 223 then some (2, 128, 191)
  else if b = 224 then some (3, 160, 191)
  else if 225 ≤ b ∧ b ≤ 236 then some (3, 128, 191)
  else if b = 237 then some (3, 128, 159)
  else if 238 ≤ b ∧ b ≤ 239 then some (3, 128, 191)
  else if b = 240 then some (4, 144, 191)
  else if 241 ≤ b ∧ b ≤ 243 then some (4, 128, 191)
  else if b = 244 then some (4, 128, 143)
  else none

/-- Go `utf8.DecodeRuneInString`: the first rune of `s` and its width in
bytes; `(RuneError, 1)` when `s` does not start with a valid encoding. -/
def DecodeRuneInString (s : GoString) : Nat × Nat :=
  match s with
  | [] => (RuneError, 0)
  | s0 :: _ =>
    match first s0 with
    | none => if s0 < 128 then (s0, 1) else (RuneError, 1)
    | some (sz, lo, hi) =>
      if s.length < sz then (RuneError, 1)
      else if s.getD 1 0 < lo ∨ hi < s.getD 1 0 then (RuneError, 1)
      else if sz ≤ 2 then (s0 % 32 * 64 + s.getD 1 0 % 64, 2)
      else if s.getD 2 0 < 128 ∨ 191 < s.getD 2 0 then (RuneError, 1)
      else if sz ≤ 3 then (s0 % 16 * 4096 + s.getD 1 0 % 64 * 64 + s.getD 2 0 % 64, 3)
      else if s.getD 3 0 < 128 ∨ 191 < s.getD 3 0 then (RuneError, 1)
      else (s0 % 8 * 262144 + s.getD 1 0 % 64 * 4096 + s.getD 2 0 % 64 * 64 + s.getD 3 0 % 64, 4)

/-- The table `htmlSafeSet` of package `encoding/json`: the ASCII bytes from
the space on that a JSON string holds as they are, which are all of them but
the double quote, the backslash, and `<`, `>`, `&`. -/
def htmlSafe (b : Nat) : Bool :=
  32 ≤ b && b ≤ 127 && b != 34 && b != 38 && b != 60 && b != 62 && b != 92

/-- The table `hex` of package `encoding/json`. -/
def hex : GoString := str "0123456789abcdef"

/-- The loop of the string encoder of `encoding/json` (Go 1.20 and 1.21) with
HTML escaping, which `json.Marshal` and `json.Encoder` have on: a safe ASCII
byte is kept; another ASCII byte is escaped with a backslash; a byte that
starts no valid UTF-8 sequence becomes the escape of U+FFFD, a backslash and
`ufffd`; the runes U+2028 and U+2029 are escaped; every other rune is kept.
The first argument bounds the number of iterations. -/
def appendStringLoop : Nat → GoString → GoString
  | 0, _ => []
  | _ + 1, [] => []
  | fuel + 1, b :: rest =>
    if b < 128 then
      if htmlSafe b = true then b :: appendStringLoop fuel rest
      else
        (92 :: (if b = 92 ∨ b = 34 then [b]
          else if b = 10 then [110]
          else if b = 13 then [114]
          else if b = 9 then [116]
          else str "u00" ++ [hex.getD (b / 16) 0, hex.getD (b % 16) 0])) ++
          appendStringLoop fuel rest
    else if (DecodeRuneInString (b :: rest)).1 = RuneError ∧
        (DecodeRuneInString (b :: rest)).2 = 1 then
      str "\\ufffd" ++ appendStringLoop fuel rest
    else if (DecodeRuneInString (b :: rest)).1 = 8232 ∨
        (DecodeRuneInString (b :: rest)).1 = 8233 then
      str "\\u202" ++ [hex.getD ((DecodeRuneInString (b :: rest)).1 % 16) 0] ++
        appendStringLoop fuel ((b :: rest).drop (DecodeRuneInString (b :: rest)).2)
    else
      (b :: rest).take (DecodeRuneInString (b :: rest)).2 ++
        appendStringLoop fuel ((b :: rest).drop (DecodeRuneInString (b :: rest)).2)

/-- The JSON text of a Go string: the encoded bytes between double quotes. -/
def encodeString (s : GoString) : GoString :=
  34 :: appendStringLoop s.length s ++ [34]

end json

/-! ## Package time -/

namespace time

def secondsPerMinute : Nat := 60
def secondsPerHour : Nat := 3600
def secondsPerDay : Nat := 86400
def daysPer400Years : Nat := 146097
def daysPer100Years : Nat := 36524
def daysPer4Years : Nat := 1461

/-- The year of the zero of absolute time; it is `1` modulo `400`. -/
def absoluteZeroYear : Int := -292277022399

/-- Go `absoluteToInternal`, the seconds from the absolute zero to
January 1 of year 1: `(absoluteZeroYear - 1) * 365.2425 * secondsPerDay`. -/
def absoluteToInternal : Int := -9223371966579724800

def internalToAbsolute : Int := 9223371966579724800

/-- The conversion `uint64(x)` of a signed value. -/
def toUint64 (x : Int) : Nat := (x % 18446744073709551616).toNat

/-- The value of an `int64` computation whose exact result is `x`. -/
def toInt64 (x : Int) : Int :=
  (x + 9223372036854775808) % 18446744073709551616 - 9223372036854775808

/-- A Go `time.Time`: `sec` is `t.sec()`, the seconds since January 1 of year
1 00:00:00 UTC, an `int64`; `nsec` is `t.nsec()`, in `[0, 999999999]`;
`offset` is the offset east of UTC, in seconds, that the location of `t` has
at this instant (`0` for the location UTC). -/
structure Time where
  sec : Int
  nsec : Nat
  offset : Int
  sec_range : -9223372036854775808 ≤ sec ∧ sec ≤ 9223372036854775807
  nsec_range : nsec < 1000000000

/-- Go `Time.UTC`: the same instant with the location set to UTC. -/
def Time.UTC (t : Time) : Time := { t with offset := 0 }

/-- Go `Time.Equal`: the two times are the same instant. -/
def Time.Equal (t u : Time) : Prop := t.sec = u.sec ∧ t.nsec = u.nsec

/-- Go `Time.abs`: the seconds since the absolute zero, in the location of `t`,
as a `uint64`. -/
def Time.abs (t : Time) : Nat := toUint64 (t.sec + t.offset + internalToAbsolute)

/-- Go `isLeap`. -/
def isLeap (year : Int) : Bool :=
  year % 4 = 0 && (year % 100 != 0 || year % 400 = 0)

/-- Go `daysBefore`: the days of a non-leap year before the end of each month. -/
def daysBefore : List Nat :=
  [0, 31, 59, 90, 120, 151, 181, 212, 243, 273, 304, 334, 365]

/-- Go `daysIn`. -/
def daysIn (m : Nat) (year : Int) : Nat :=
  if m = 2 ∧ isLeap year = true then 29
  else daysBefore.getD m 0 - daysBefore.getD (m - 1) 0

/-- Go `absDate(abs, true)`: year, month, day of the month and day of the
year (from zero) of an absolute time. -/
def absDate (abs : Nat) : Int × Nat × Nat × Nat :=
  let d := abs / secondsPerDay
  -- 400-year cycles
  let n := d / daysPer400Years
  let y := 400 * n
  let d := d - daysPer400Years * n
  -- 100-year cycles; the last one has one extra leap year
  let n := d / daysPer100Years
  let n := n - n / 4
  let y := y + 100 * n
  let d := d - daysPer100Years * n
  -- 4-year cycles
  let n := d / daysPer4Years
  let y := y + 4 * n
  let d := d - daysPer4Years * n
  -- years within a 4-year cycle; the last one is a leap year
  let n := d / 365
  let n := n - n / 4
  let y := y + n
  let d := d - 365 * n
  let year : Int := (y : Int) + absoluteZeroYear
  let yday := d
  if isLeap year = true ∧ yday = 31 + 29 - 1 then (year, 2, 29, yday)
  else
    let day := if isLeap year = true ∧ yday > 31 + 29 - 1 then yday - 1 else yday
    let month := day / 31
    let stop := daysBefore.getD (month + 1) 0
    if day ≥ stop then (year, month + 1 + 1, day - stop + 1, yday)
    else (year, month + 1, day - daysBefore.getD month 0 + 1, yday)

/-- Go `absClock`: hour, minute and second of an absolute time. -/
def absClock (abs : Nat) : Nat × Nat × Nat :=
  let sec := abs % secondsPerDay
  let hour := sec / secondsPerHour
  let sec := sec - hour * secondsPerHour
  let min := sec / secondsPerMinute
  let sec := sec - min * secondsPerMinute
  (hour, min, sec)

/-- Go `appendInt`: the decimal form of `x`, after a `-` when `x` is negative,
padded with zeros on the left to at least `width` digits. -/
def appendInt (b : GoString) (x : Int) (width : Nat) : GoString :=
  let b := if x < 0 then b ++ [45] else b
  let digits := fmt.fmtUint x.natAbs
  b ++ List.replicate (width - digits.length) 48 ++ digits

/-- The loop `for len(b) > 0 && b[len(b)-1] == c { b = b[:len(b)-1] }`. -/
def trimRight (b : GoString) (c : Nat) : GoString :=
  (b.reverse.dropWhile (fun x => x == c)).reverse

/-- Go `appendNano` for the layout element `.999999999`: nothing for zero
nanoseconds, else a dot and the nine digits without their trailing zeros. -/
def appendNano (b : GoString) (nanosec : Nat) : GoString :=
  if nanosec = 0 then b
  else
    let b := appendInt (b ++ [46]) nanosec 9
    let b := trimRight b 48
    if b.getLast? = some 46 then b.dropLast else b

/-- Go `Time.appendFormatRFC3339(b, true)`. -/
def Time.appendFormatRFC3339 (t : Time) (b : GoString) : GoString :=
  let abs := t.abs
  let (year, month, day, _) := absDate abs
  let b := appendInt b year 4
  let b := b ++ [45]
  let b := appendInt b month 2
  let b := b ++ [45]
  let b := appendInt b day 2
  let b := b ++ [84]
  let (hour, min, sec) := absClock abs
  let b := appendInt b hour 2
  let b := b ++ [58]
  let b := appendInt b min 2
  let b := b ++ [58]
  let b := appendInt b sec 2
  let b := appendNano b t.nsec
  if t.offset = 0 then b ++ [90]
  else
    let zone := t.offset.tdiv 60
    let b := if zone < 0 then b ++ [45] else b ++ [43]
    let zone := if zone < 0 then -zone else zone
    let b := appendInt b (zone.tdiv 60) 2
    let b := b ++ [58]
    appendInt b (zone.tmod 60) 2

/-- The two-digit number `num2` of `appendStrictRFC3339`, in byte arithmetic. -/
def num2 (b : GoString) : Nat :=
  (10 * (b.getD 0 0 + 256 - 48) + (b.getD 1 0 + 256 - 48)) % 256

/-- Go `Time.appendStrictRFC3339` on an empty buffer: the RFC 3339 form, and
an error when the year has not exactly four digits or the zone hour is not in
`[0, 23]`. -/
def Time.appendStrictRFC3339 (t : Time) : Except GoError GoString :=
  let b := t.appendFormatRFC3339 []
  if b.getD 4 0 ≠ 45 then .error ⟨str "year outside of range [0,9999]"⟩
  else if b.getLast? ≠ some 90 then
    let c := b.getD (b.length - 6) 0
    if (48 ≤ c ∧ c ≤ 57) ∨ num2 (b.drop (b.length - 5)) ≥ 24 then
      .error ⟨str "timezone hour outside of range [0,23]"⟩
    else .ok b
  else .ok b

/-- Go `Time.MarshalText`. -/
def Time.MarshalText (t : Time) : Except GoError GoString :=
  match t.appendStrictRFC3339 with
  | .error err => .error ⟨str "Time.MarshalText: " ++ err.msg⟩
  | .ok b => .ok b

/-- Go `norm`: `lo` brought into `[0, base)`, the excess carried into `hi`. -/
def norm (hi lo base : Int) : Int × Int :=
  let (hi, lo) := if lo < 0 then (hi - ((-lo - 1) / base + 1), lo + ((-lo - 1) / base + 1) * base)
    else (hi, lo)
  if lo ≥ base then (hi + lo / base, lo - lo / base * base) else (hi, lo)

/-- Go `Date` for the location UTC: the time of the given civil date and
clock, values outside their ranges being carried over. -/
def Date (year month day hour min sec nsec : Int) : Time :=
  -- normalize month, overflowing into year
  let ym := norm year (month - 1) 12
  let year := ym.1
  let month := ym.2 + 1
  -- normalize nsec, sec, min, hour, overflowing into day
  let sn := norm sec nsec 1000000000
  let sec := sn.1
  let nsec := sn.2
  let ms := norm min sec 60
  let min := ms.1
  let sec := ms.2
  let hm := norm hour min 60
  let hour := hm.1
  let min := hm.2
  let dh := norm day hour 24
  let day := dh.1
  let hour := dh.2
  let y := toUint64 (year - absoluteZeroYear)
  -- days since the absolute zero: 400-year cycles
  let n := y / 400
  let y := y - 400 * n
  let d : Int := daysPer400Years * n
  -- 100-year cycles
  let n := y / 100
  let y := y - 100 * n
  let d := d + daysPer100Years * n
  -- 4-year cycles
  let n := y / 4
  let y := y - 4 * n
  let d := d + daysPer4Years * n
  -- non-leap years
  let d := d + 365 * y
  -- days before this month
  let d := d + daysBefore.getD (month - 1).toNat 0
  let d := if isLeap year = true ∧ month ≥ 3 then d + 1 else d
  -- days before today
  let d := d + (day - 1)
  -- time elapsed today
  let abs := d * secondsPerDay + (hour * secondsPerHour + min * secondsPerMinute + sec)
  { sec := toInt64 (abs + absoluteToInternal)
    nsec := nsec.toNat
    offset := 0
    sec_range := by unfold toInt64; omega
    nsec_range := by
      show (norm _ _ 1000000000).2.toNat < 1000000000
      unfold norm
      dsimp only
      split <;> split <;> omega }

/-- Go `Time.addSec`: `d` seconds later, saturating at the ends of `int64`. -/
def Time.addSec (t : Time) (d : Int) : Time :=
  let sum := toInt64 (t.sec + d)
  if decide (sum > t.sec) = decide (d > 0) then
    { t with sec := sum, sec_range := by show _ ≤ toInt64 _ ∧ toInt64 _ ≤ _; unfold toInt64; omega }
  else if d > 0 then
    { t with sec := 9223372036854775807, sec_range := by omega }
  else
    { t with sec := -9223372036854775807, sec_range := by omega }

/-- Go `leadingInt`: the value of the leading decimal digits of `s` and the
rest of `s`, or nothing when the value overflows. -/
def leadingInt (x : Nat) (s : GoString) : Option (Nat × GoString) :=
  match s with
  | [] => some (x, [])
  | c :: rest =>
    if c < 48 ∨ c > 57 then some (x, c :: rest)
    else if x > 9223372036854775808 / 10 then none
    else if x * 10 + c - 48 > 9223372036854775808 then none
    else leadingInt (x * 10 + c - 48) rest

/-- Go `atoi`: a decimal integer with an optional sign. -/
def atoi (s : GoString) : Option Int :=
  let neg := s.head? = some 45
  let s := if s.head? = some 45 ∨ s.head? = some 43 then s.drop 1 else s
  match leadingInt 0 s with
  | some (q, []) => some (if neg then -(q : Int) else q)
  | _ => none

/-- Go `parseNanoseconds`, errors dropped as its caller `parseRFC3339` does:
the nanoseconds that the fraction `value[:nbytes]`, a dot and digits, stands
for. -/
def parseNanoseconds (value : GoString) (nbytes : Nat) : Int :=
  if value.getD 0 0 ≠ 46 ∧ value.getD 0 0 ≠ 44 then 0
  else
    let nbytes := if nbytes > 10 then 10 else nbytes
    match atoi ((value.take nbytes).drop 1) with
    | none => 0
    | some ns =>
      if ns < 0 then ns
      else ns * 10 ^ (10 - nbytes)

/-- The closure `parseUint` of `parseRFC3339`: the decimal value of `s` and
whether `s` has only digits and its value is in `[min, max]`; `min` stands for
the value when not. -/
def parseUintLoop (x : Nat) (s : GoString) : Option Nat :=
  match s with
  | [] => some x
  | c :: rest => if c < 48 ∨ 57 < c then none else parseUintLoop (x * 10 + c - 48) rest

def parseUint (s : GoString) (min max : Nat) : Nat × Bool :=
  match parseUintLoop 0 s with
  | none => (min, false)
  | some x => if x < min ∨ max < x then (min, false) else (x, true)

/-- Go `isDigit`. -/
def isDigit (s : GoString) (i : Nat) : Bool :=
  if s.length ≤ i then false else 48 ≤ s.getD i 0 && s.getD i 0 ≤ 57

/-- The slice `s[i:j]`. -/
def slice (s : GoString) (i j : Nat) : GoString := (s.take j).drop i

/-- Go `parseRFC3339`: the time an RFC 3339 text stands for, `none` where
the Go function reports failure. A text with a numeric zone gets the fixed
zone of that offset as its location. -/
def parseRFC3339 (s : GoString) : Option Time :=
  if s.length < 19 then none
  else
    let year := parseUint (slice s 0 4) 0 9999
    let month := parseUint (slice s 5 7) 1 12
    let day := parseUint (slice s 8 10) 1 (daysIn month.1 year.1)
    let hour := parseUint (slice s 11 13) 0 23
    let min := parseUint (slice s 14 16) 0 59
    let sec := parseUint (slice s 17 19) 0 59
    let ok := year.2 && month.2 && day.2 && hour.2 && min.2 && sec.2
    if !ok || !(s.getD 4 0 = 45 && s.getD 7 0 = 45 && s.getD 10 0 = 84
        && s.getD 13 0 = 58 && s.getD 16 0 = 58) then none
    else
      let s := s.drop 19
      -- the fractional second
      let frac := s.length ≥ 2 && s.getD 0 0 = 46 && isDigit s 1
      let n := 2 + ((s.drop 2).takeWhile (fun c => 48 ≤ c && c ≤ 57)).length
      let nsec := if frac then parseNanoseconds s n else 0
      let s := if frac then s.drop n else s
      -- the time zone
      let t := Date year.1 month.1 day.1 hour.1 min.1 sec.1 nsec
      if s.length = 1 ∧ s.getD 0 0 = 90 then some t
      else if s.length ≠ 6 then none
      else
        let hr := parseUint (slice s 1 3) 0 23
        let mm := parseUint (slice s 4 6) 0 59
        if !(hr.2 && mm.2) || !((s.getD 0 0 = 45 || s.getD 0 0 = 43) && s.getD 3 0 = 58) then none
        else
          let zoneOffset : Int := (hr.1 * 60 + mm.1) * 60
          let zoneOffset := if s.getD 0 0 = 45 then -zoneOffset else zoneOffset
          some { t.addSec (-zoneOffset) with offset := zoneOffset }

/-! ### The parts of a rendered timestamp -/

/-- The `w` decimal digits of `v`, the most significant first, zeros included:
what `appendInt` writes for a value below `10 ^ w` at width `w`. -/
def fixed : Nat → Nat → GoString
  | 0, _ => []
  | w + 1, v => fixed w (v / 10) ++ [48 + v % 10]

/-- The fraction `appendNano` writes: nothing for zero nanoseconds, else a
dot and the nine digits without their trailing zeros. -/
def fraction (n : Nat) : GoString :=
  if n = 0 then [] else 46 :: trimRight (fixed 9 n) 48

/-- The month and the day of the month that `absDate` computes from the day
of the year and whether the year is a leap year. -/
def monthDay (leap : Bool) (yday : Nat) : Nat × Nat :=
  if leap = true ∧ yday = 31 + 29 - 1 then (2, 29)
  else
    let day := if leap = true ∧ yday > 31 + 29 - 1 then yday - 1 else yday
    let month := day / 31
    let stop := daysBefore.getD (month + 1) 0
    if day ≥ stop then (month + 1 + 1, day - stop + 1)
    else (month + 1, day - daysBefore.getD month 0 + 1)

/-- The year, counted from the absolute zero, that `absDate` computes. -/
def absYear (abs : Nat) : Nat :=
  let d := abs / secondsPerDay
  let n := d / daysPer400Years
  let y := 400 * n
  let d := d - daysPer400Years * n
  let n := d / daysPer100Years
  let n := n - n / 4
  let y := y + 100 * n
  let d := d - daysPer100Years * n
  let n := d / daysPer4Years
  let y := y + 4 * n
  let d := d - daysPer4Years * n
  let n := d / 365
  let n := n - n / 4
  y + n

/-- The day of the year that `absDate` computes. -/
def absYday (abs : Nat) : Nat :=
  let d := abs / secondsPerDay
  let n := d / daysPer400Years
  let d := d - daysPer400Years * n
  let n := d / daysPer100Years
  let n := n - n / 4
  let d := d - daysPer100Years * n
  let n := d / daysPer4Years
  let d := d - daysPer4Years * n
  let n := d / 365
  let n := n - n / 4
  d - 365 * n

end time

/-! ## Data model -/

/-- A Go `interface{}` holding structured data: a tree of maps, arrays and
scalars, a number being kept as its literal text. -/
inductive Value where
  | null
  | bool (b : Bool)
  | number (text : GoString)
  | string (s : GoString)
  | array (items : List Value)
  | object (fields : List (GoString × Value))

/-- PluginConnectAllWebsites mapping. -/
structure PluginConnectAllWebsites where
  WebsiteID : Option GoString
  Settings : Option Value

/-- PluginConnectAllWebsitesData mapping. -/
structure PluginConnectAllWebsitesData where
  Data : Option (List PluginConnectAllWebsites)

/-- PluginConnectWebsitesSince mapping. -/
structure PluginConnectWebsitesSince where
  WebsiteID : Option GoString
  Settings : Option Value
  Difference : Option GoString

/-- PluginConnectWebsitesSinceData mapping. -/
structure PluginConnectWebsitesSinceData where
  Data : Option (List PluginConnectWebsitesSince)

/-- PluginSubscription mapping. -/
structure PluginSubscription where
  ID : Option GoString
  URN : Option GoString
  Type_ : Option GoString
  Name : Option GoString
  Description : Option GoString
  Features : Option (List GoString)
  Showcase : Option (List GoString)
  Price : Option Nat
  Color : Option GoString
  Icon : Option GoString
  Banner : Option GoString
  Since : Option GoString
  Active : Option Bool
  WebsiteID : Option GoString
  CardID : Option GoString

/-- PluginSubscriptionListData mapping. -/
structure PluginSubscriptionListData where
  Data : Option (List PluginSubscription)

/-- PluginSubscriptionData mapping. -/
structure PluginSubscriptionData where
  Data : Option PluginSubscription

/-- PluginSubscriptionCreate mapping. -/
structure PluginSubscriptionCreate where
  PluginID : Option GoString

/-- PluginSubscriptionSettings mapping. -/
structure PluginSubscriptionSettings where
  PluginID : Option GoString
  WebsiteID : Option GoString
  Schema : Option Value
  Settings : Option Value

/-- PluginSubscriptionSettingsData mapping. -/
structure PluginSubscriptionSettingsData where
  Data : Option PluginSubscriptionSettings

/-- Modelled from the spec: the serialization of a request body is done by
`NewRequest` of the shared client, which is not among the source files; the
specification says that bodies are JSON objects with the keys of the struct
tags and that absent fields are omitted. It is taken to be Go's
`encoding/json` on the struct: by the tag `json:"plugin_id,omitempty"` the
object with the one key `plugin_id` and the JSON text of the string when the
pointer `PluginID` is not nil, and the empty object when it is. -/
def PluginSubscriptionCreate.MarshalJSON (v : PluginSubscriptionCreate) : GoString :=
  match v.PluginID with
  | none => str "\x7b\x7d"
  | some id => str "\x7b\"plugin_id\":" ++ json.encodeString id ++ str "\x7d"

/-! ## The shared client -/

/-- The `body interface{}` argument of `NewRequest`: `nil`, a
`PluginSubscriptionCreate`, or any other value a caller provides. -/
inductive Body where
  | nil
  | PluginSubscriptionCreate (v : PluginSubscriptionCreate)
  | value (v : Value)

/-- The `v interface{}` argument of `Do`: `nil`, or a pointer to one of the
five envelope types. -/
inductive Target where
  | nil
  | PluginConnectAllWebsitesData
  | PluginConnectWebsitesSinceData
  | PluginSubscriptionListData
  | PluginSubscriptionData
  | PluginSubscriptionSettingsData
deriving DecidableEq, Repr

/-- The type of the value a `Target` points to. -/
@[reducible] def Target.Pointee : Target → Type
  | .nil => Unit
  | .PluginConnectAllWebsitesData => Crisp.PluginConnectAllWebsitesData
  | .PluginConnectWebsitesSinceData => Crisp.PluginConnectWebsitesSinceData
  | .PluginSubscriptionListData => Crisp.PluginSubscriptionListData
  | .PluginSubscriptionData => Crisp.PluginSubscriptionData
  | .PluginSubscriptionSettingsData => Crisp.PluginSubscriptionSettingsData

/-- What a call of `Do` leaves behind: the `*Response` and `error` it returns,
the value its argument `v` points to after the call, and the state of the
client. -/
structure DoResult (σ R : Type) (k : Target) where
  resp : Option R
  err : Option GoError
  v : k.Pointee
  state : σ

/-- The shared client `service.client`, whose code is not part of the two
source files: any pair of functions `NewRequest(method, urlStr, body)` and
`Do(req, v)` over a state `σ`, with requests of type `ρ` and responses of
type `R`. `NewRequest` returns `(*http.Request, error)`. -/
structure Client (σ ρ R : Type) where
  NewRequest : σ → GoString → GoString → Body → (Option ρ × Option GoError) × σ
  Do : σ → Option ρ → (k : Target) → k.Pointee → DoResult σ R k

/-- The plugin service: a handle on the shared client. -/
structure PluginService (σ ρ R : Type) where
  client : Client σ ρ R

/-! ## Operations -/

section Operations

variable {σ ρ R : Type}

/-- CheckConnectSessionValidity checks whether the connected plugin session is
valid or not. -/
def PluginService.CheckConnectSessionValidity (service : PluginService σ ρ R) (s : σ) :
    (Option R × Option GoError) × σ :=
  let url := str "plugin/connect/session"
  let nr := service.client.NewRequest s (str "HEAD") url Body.nil
  let req := nr.1.1
  let d := service.client.Do nr.2 req Target.nil ()
  ((d.resp, d.err), d.state)

/-- ListAllConnectWebsites lists all websites linked to connected plugin. -/
def PluginService.ListAllConnectWebsites (service : PluginService σ ρ R) (pageNumber : Nat)
    (s : σ) : (Option (List PluginConnectAllWebsites) × Option R × Option GoError) × σ :=
  let url := str "plugin/connect/websites/all/" ++ fmt.fmtUint pageNumber
  let nr := service.client.NewRequest s (str "GET") url Body.nil
  let req := nr.1.1
  let websites : PluginConnectAllWebsitesData := { Data := none }
  let d := service.client.Do nr.2 req Target.PluginConnectAllWebsitesData websites
  match d.err with
  | some err => ((none, d.resp, some err), d.state)
  | none => ((d.v.Data, d.resp, none), d.state)

/-- ListConnectWebsitesSince lists the websites linked or unlinked or updated
for connected plugin, since given date. -/
def PluginService.ListConnectWebsitesSince (service : PluginService σ ρ R)
    (dateSince : time.Time) (s : σ) :
    (Option (List PluginConnectWebsitesSince) × Option R × Option GoError) × σ :=
  match dateSince.UTC.MarshalText with
  | .error err => ((none, none, some err), s)
  | .ok dateSinceFormat =>
    let url := str "plugin/connect/websites/since?date_since=" ++ url.QueryEscape dateSinceFormat
    let nr := service.client.NewRequest s (str "GET") url Body.nil
    let req := nr.1.1
    let websites : PluginConnectWebsitesSinceData := { Data := none }
    let d := service.client.Do nr.2 req Target.PluginConnectWebsitesSinceData websites
    match d.err with
    | some err => ((none, d.resp, some err), d.state)
    | none => ((d.v.Data, d.resp, none), d.state)

/-- ListAllActiveSubscriptions lists all active plugin subscriptions on all
websites, linked to payment methods owned by the user. -/
def PluginService.ListAllActiveSubscriptions (service : PluginService σ ρ R) (s : σ) :
    (Option (List PluginSubscription) × Option R × Option GoError) × σ :=
  let url := str "plugins/subscription"
  let nr := service.client.NewRequest s (str "GET") url Body.nil
  let req := nr.1.1
  let plugins : PluginSubscriptionListData := { Data := none }
  let d := service.client.Do nr.2 req Target.PluginSubscriptionListData plugins
  match d.err with
  | some err => ((none, d.resp, some err), d.state)
  | none => ((d.v.Data, d.resp, none), d.state)

/-- ListSubscriptionsForWebsite lists plugin subscriptions for given website. -/
def PluginService.ListSubscriptionsForWebsite (service : PluginService σ ρ R)
    (websiteID : GoString) (s : σ) :
    (Option PluginSubscription × Option R × Option GoError) × σ :=
  let url := str "plugins/subscription/" ++ websiteID
  let nr := service.client.NewRequest s (str "GET") url Body.nil
  let req := nr.1.1
  let plugins : PluginSubscriptionData := { Data := none }
  let d := service.client.Do nr.2 req Target.PluginSubscriptionData plugins
  match d.err with
  | some err => ((none, d.resp, some err), d.state)
  | none => ((d.v.Data, d.resp, none), d.state)

/-- GetSubscriptionDetails resolves details on a given subscription. -/
def PluginService.GetSubscriptionDetails (service : PluginService σ ρ R)
    (websiteID : GoString) (pluginID : GoString) (s : σ) :
    (Option PluginSubscription × Option R × Option GoError) × σ :=
  let url := str "plugins/subscription/" ++ websiteID ++ str "/" ++ pluginID
  let nr := service.client.NewRequest s (str "GET") url Body.nil
  let req := nr.1.1
  let plugins : PluginSubscriptionData := { Data := none }
  let d := service.client.Do nr.2 req Target.PluginSubscriptionData plugins
  match d.err with
  | some err => ((none, d.resp, some err), d.state)
  | none => ((d.v.Data, d.resp, none), d.state)

/-- SubscribeWebsiteToPlugin subscribes a given website to a given plugin. -/
def PluginService.SubscribeWebsiteToPlugin (service : PluginService σ ρ R)
    (websiteID : GoString) (pluginID : GoString) (s : σ) : (Option R × Option GoError) × σ :=
  let url := str "plugins/subscription/" ++ websiteID
  let nr := service.client.NewRequest s (str "PATCH") url
    (Body.PluginSubscriptionCreate { PluginID := some pluginID })
  let req := nr.1.1
  let d := service.client.Do nr.2 req Target.nil ()
  ((d.resp, d.err), d.state)

/-- UnsubscribePluginFromWebsite unsubscribes a given plugin from a given
website. -/
def PluginService.UnsubscribePluginFromWebsite (service : PluginService σ ρ R)
    (websiteID : GoString) (pluginID : GoString) (s : σ) : (Option R × Option GoError) × σ :=
  let url := str "plugins/subscription/" ++ websiteID ++ str "/" ++ pluginID
  let nr := service.client.NewRequest s (str "DELETE") url Body.nil
  let req := nr.1.1
  let d := service.client.Do nr.2 req Target.nil ()
  ((d.resp, d.err), d.state)

/-- GetSubscriptionSettings resolves plugin subscription settings. Used to read
plugin configuration on a given website. -/
def PluginService.GetSubscriptionSettings (service : PluginService σ ρ R)
    (websiteID : GoString) (pluginID : GoString) (s : σ) :
    (Option PluginSubscriptionSettings × Option R × Option GoError) × σ :=
  let url := str "plugins/subscription/" ++ websiteID ++ str "/" ++ pluginID ++ str "/settings"
  let nr := service.client.NewRequest s (str "GET") url Body.nil
  let req := nr.1.1
  let plugins : PluginSubscriptionSettingsData := { Data := none }
  let d := service.client.Do nr.2 req Target.PluginSubscriptionSettingsData plugins
  match d.err with
  | some err => ((none, d.resp, some err), d.state)
  | none => ((d.v.Data, d.resp, none), d.state)

/-- SaveSubscriptionSettings saves plugin subscription settings. Used to
configure a given plugin on a given website. -/
def PluginService.SaveSubscriptionSettings (service : PluginService σ ρ R)
    (websiteID : GoString) (pluginID : GoString) (settings : Body) (s : σ) :
    (Option R × Option GoError) × σ :=
  let url := str "plugins/subscription/" ++ websiteID ++ str "/" ++ pluginID ++ str "/settings"
  let nr := service.client.NewRequest s (str "PATCH") url settings
  let req := nr.1.1
  let d := service.client.Do nr.2 req Target.nil ()
  ((d.resp, d.err), d.state)

end Operations

/-! ## A uniform view of the ten operations, and the call log -/

/-- The type of the field `Data` of the envelope a `Target` points to; the
`nil` target has no envelope and so no data. -/
@[reducible] def Target.Data : Target → Type
  | .nil => Empty
  | .PluginConnectAllWebsitesData => List PluginConnectAllWebsites
  | .PluginConnectWebsitesSinceData => List PluginConnectWebsitesSince
  | .PluginSubscriptionListData => List PluginSubscription
  | .PluginSubscriptionData => PluginSubscription
  | .PluginSubscriptionSettingsData => PluginSubscriptionSettings

/-- The value `new(T)` makes: the envelope whose `Data` is nil. -/
def Target.fresh : (k : Target) → k.Pointee
  | .nil => ()
  | .PluginConnectAllWebsitesData => { Data := none }
  | .PluginConnectWebsitesSinceData => { Data := none }
  | .PluginSubscriptionListData => { Data := none }
  | .PluginSubscriptionData => { Data := none }
  | .PluginSubscriptionSettingsData => { Data := none }

/-- The field `Data` of an envelope. -/
def Target.data : (k : Target) → k.Pointee → Option k.Data
  | .nil, _ => none
  | .PluginConnectAllWebsitesData, v => v.Data
  | .PluginConnectWebsitesSinceData, v => v.Data
  | .PluginSubscriptionListData, v => v.Data
  | .PluginSubscriptionData, v => v.Data
  | .PluginSubscriptionSettingsData, v => v.Data

/-- One call of an operation of the plugin service, with its arguments. -/
inductive Invocation where
  | CheckConnectSessionValidity
  | ListAllConnectWebsites (pageNumber : Nat)
  | ListConnectWebsitesSince (dateSince : time.Time)
  | ListAllActiveSubscriptions
  | ListSubscriptionsForWebsite (websiteID : GoString)
  | GetSubscriptionDetails (websiteID : GoString) (pluginID : GoString)
  | SubscribeWebsiteToPlugin (websiteID : GoString) (pluginID : GoString)
  | UnsubscribePluginFromWebsite (websiteID : GoString) (pluginID : GoString)
  | GetSubscriptionSettings (websiteID : GoString) (pluginID : GoString)
  | SaveSubscriptionSettings (websiteID : GoString) (pluginID : GoString) (settings : Body)

/-- The envelope an operation decodes into: `nil` for the five operations
that return `(*Response, error)` only. -/
@[reducible] def Invocation.target : Invocation → Target
  | .CheckConnectSessionValidity => .nil
  | .ListAllConnectWebsites _ => .PluginConnectAllWebsitesData
  | .ListConnectWebsitesSince _ => .PluginConnectWebsitesSinceData
  | .ListAllActiveSubscriptions => .PluginSubscriptionListData
  | .ListSubscriptionsForWebsite _ => .PluginSubscriptionData
  | .GetSubscriptionDetails _ _ => .PluginSubscriptionData
  | .SubscribeWebsiteToPlugin _ _ => .nil
  | .UnsubscribePluginFromWebsite _ _ => .nil
  | .GetSubscriptionSettings _ _ => .PluginSubscriptionSettingsData
  | .SaveSubscriptionSettings _ _ _ => .nil

/-- What an operation returns: the payload (always absent for an operation
without one), the Result and the error. -/
structure Outcome (R : Type) (k : Target) where
  payload : Option k.Data
  resp : Option R
  err : Option GoError

section Harness

variable {σ ρ R : Type}

/-- Runs the operation an `Invocation` names. -/
def invoke (service : PluginService σ ρ R) : (inv : Invocation) → σ → Outcome R inv.target × σ
  | .CheckConnectSessionValidity, s =>
    let r := service.CheckConnectSessionValidity s
    (⟨none, r.1.1, r.1.2⟩, r.2)
  | .ListAllConnectWebsites pageNumber, s =>
    let r := service.ListAllConnectWebsites pageNumber s
    (⟨r.1.1, r.1.2.1, r.1.2.2⟩, r.2)
  | .ListConnectWebsitesSince dateSince, s =>
    let r := service.ListConnectWebsitesSince dateSince s
    (⟨r.1.1, r.1.2.1, r.1.2.2⟩, r.2)
  | .ListAllActiveSubscriptions, s =>
    let r := service.ListAllActiveSubscriptions s
    (⟨r.1.1, r.1.2.1, r.1.2.2⟩, r.2)
  | .ListSubscriptionsForWebsite websiteID, s =>
    let r := service.ListSubscriptionsForWebsite websiteID s
    (⟨r.1.1, r.1.2.1, r.1.2.2⟩, r.2)
  | .GetSubscriptionDetails websiteID pluginID, s =>
    let r := service.GetSubscriptionDetails websiteID pluginID s
    (⟨r.1.1, r.1.2.1, r.1.2.2⟩, r.2)
  | .SubscribeWebsiteToPlugin websiteID pluginID, s =>
    let r := service.SubscribeWebsiteToPlugin websiteID pluginID s
    (⟨none, r.1.1, r.1.2⟩, r.2)
  | .UnsubscribePluginFromWebsite websiteID pluginID, s =>
    let r := service.UnsubscribePluginFromWebsite websiteID pluginID s
    (⟨none, r.1.1, r.1.2⟩, r.2)
  | .GetSubscriptionSettings websiteID pluginID, s =>
    let r := service.GetSubscriptionSettings websiteID pluginID s
    (⟨r.1.1, r.1.2.1, r.1.2.2⟩, r.2)
  | .SaveSubscriptionSettings websiteID pluginID settings, s =>
    let r := service.SaveSubscriptionSettings websiteID pluginID settings s
    (⟨none, r.1.1, r.1.2⟩, r.2)

/-- One entry of the call log of a client: a call of `NewRequest` with its
three arguments and the two values it returned, or a call of `Do` with its
request, the target and the value it pointed to before the call, and what
the call returned and left in the target. -/
inductive Call (ρ R : Type) where
  | NewRequest (method urlStr : GoString) (body : Body) (req : Option ρ) (err : Option GoError)
  | Do (req : Option ρ) (k : Target) (v : k.Pointee) (resp : Option R) (err : Option GoError)
      (after : k.Pointee)

/-- The client `c` with a call log: every call is passed to `c` and appended
to the log. -/
def recording (c : Client σ ρ R) : Client (σ × List (Call ρ R)) ρ R where
  NewRequest st method urlStr body :=
    let nr := c.NewRequest st.1 method urlStr body
    (nr.1, (nr.2, st.2 ++ [Call.NewRequest method urlStr body nr.1.1 nr.1.2]))
  Do st req k v :=
    let d := c.Do st.1 req k v
    { resp := d.resp, err := d.err, v := d.v,
      state := (d.state, st.2 ++ [Call.Do req k v d.resp d.err d.v]) }

/-- The service on the recording client. -/
def PluginService.recorded (service : PluginService σ ρ R) :
    PluginService (σ × List (Call ρ R)) ρ R :=
  { client := recording service.client }

/-- The calls one invocation makes on the client, in order. -/
def trace (service : PluginService σ ρ R) (inv : Invocation) (s : σ) : List (Call ρ R) :=
  (invoke service.recorded inv (s, [])).2.2

/-- The `(method, urlStr, body)` of the `NewRequest` calls of a log. -/
def requestLines : List (Call ρ R) → List (GoString × GoString × Body)
  | [] => []
  | Call.NewRequest method urlStr body _ _ :: rest => (method, urlStr, body) :: requestLines rest
  | Call.Do _ _ _ _ _ _ :: rest => requestLines rest

/-- One request and response cycle on the client: `NewRequest`, then `Do` on
the request it returned (its error dropped) with a fresh target. -/
def PluginService.exchange (service : PluginService σ ρ R) (s : σ)
    (method urlStr : GoString) (body : Body) (k : Target) : DoResult σ R k :=
  service.client.Do (service.client.NewRequest s method urlStr body).2
    (service.client.NewRequest s method urlStr body).1.1 k k.fresh

/-- What an operation returns after a `Do` that returned `resp` and `err` and
left `after` in the target: the `Data` of the target when `err` is nil, no
payload when it is not, and `resp` and `err` as they are. -/
def Outcome.ofDo (k : Target) (resp : Option R) (err : Option GoError) (after : k.Pointee) :
    Outcome R k :=
  { payload := match err with
      | none => k.data after
      | some _ => none
    resp := resp
    err := err }

/-- The request line of the wire contract for an invocation: method, path and
body of the table of the specification, `ts` being the query-escaped UTC
rendering of the timestamp. A timestamp that has no rendering has no line. -/
def wireContract : Invocation → Option (GoString × GoString × Body)
  | .CheckConnectSessionValidity => some (str "HEAD", str "plugin/connect/session", Body.nil)
  | .ListAllConnectWebsites pageNumber =>
    some (str "GET", str "plugin/connect/websites/all/" ++ fmt.fmtUint pageNumber, Body.nil)
  | .ListConnectWebsitesSince dateSince =>
    match dateSince.UTC.MarshalText with
    | .ok ts =>
      some (str "GET", str "plugin/connect/websites/since?date_since=" ++ url.QueryEscape ts,
        Body.nil)
    | .error _ => none
  | .ListAllActiveSubscriptions => some (str "GET", str "plugins/subscription", Body.nil)
  | .ListSubscriptionsForWebsite websiteID =>
    some (str "GET", str "plugins/subscription/" ++ websiteID, Body.nil)
  | .GetSubscriptionDetails websiteID pluginID =>
    some (str "GET", str "plugins/subscription/" ++ websiteID ++ str "/" ++ pluginID, Body.nil)
  | .SubscribeWebsiteToPlugin websiteID pluginID =>
    some (str "PATCH", str "plugins/subscription/" ++ websiteID,
      Body.PluginSubscriptionCreate { PluginID := some pluginID })
  | .UnsubscribePluginFromWebsite websiteID pluginID =>
    some (str "DELETE", str "plugins/subscription/" ++ websiteID ++ str "/" ++ pluginID, Body.nil)
  | .GetSubscriptionSettings websiteID pluginID =>
    some (str "GET",
      str "plugins/subscription/" ++ websiteID ++ str "/" ++ pluginID ++ str "/settings", Body.nil)
  | .SaveSubscriptionSettings websiteID pluginID settings =>
    some (str "PATCH",
      str "plugins/subscription/" ++ websiteID ++ str "/" ++ pluginID ++ str "/settings", settings)

/-- The paths of the requests one invocation builds. -/
def paths (service : PluginService σ ρ R) (inv : Invocation) (s : σ) : List GoString :=
  (requestLines (trace service inv s)).map (fun line => line.2.1)

end Harness

/-! ## Concrete clients and inputs -/

/-- A subscription with an identifier only. -/
def sampleSubscription : PluginSubscription :=
  { ID := some (str "s1"), URN := none, Type_ := none, Name := none, Description := none,
    Features := none, Showcase := none, Price := none, Color := none, Icon := none,
    Banner := none, Since := none, Active := none, WebsiteID := none, CardID := none }

/-- An envelope of each type with data in it; the list of websites holds the
one website `w1`, without settings. -/
def Target.written : (k : Target) → k.Pointee
  | .nil => ()
  | .PluginConnectAllWebsitesData => { Data := some [{ WebsiteID := some (str "w1"), Settings := none }] }
  | .PluginConnectWebsitesSinceData => { Data := some [] }
  | .PluginSubscriptionListData => { Data := some [sampleSubscription] }
  | .PluginSubscriptionData => { Data := some sampleSubscription }
  | .PluginSubscriptionSettingsData =>
    { Data := some { PluginID := none, WebsiteID := none, Schema := none, Settings := none } }

/-- A client whose `Do` decodes data into the target and then fails, with a
Result of status 500. -/
def failingClient : Client Unit Nat Nat where
  NewRequest s _ _ _ := ((some 1, none), s)
  Do s _ k _ := { resp := some 500, err := some ⟨str "transport failure"⟩, v := k.written, state := s }

/-- A client whose `Do` succeeds with status 200 and decodes data into the
target. -/
def servingClient : Client Unit Nat Nat where
  NewRequest s _ _ _ := ((some 1, none), s)
  Do s _ k _ := { resp := some 200, err := none, v := k.written, state := s }

/-- A client whose `Do` succeeds with status 200 on a response without the
inner field: the target is left as it is. -/
def emptyClient : Client Unit Nat Nat where
  NewRequest s _ _ _ := ((some 1, none), s)
  Do s _ _ v := { resp := some 200, err := none, v := v, state := s }

/-- The client `emptyClient` with a request builder that fails: it returns a
nil request and an error. -/
def brokenBuilderClient : Client Unit Nat Nat where
  NewRequest s _ _ _ := ((none, some ⟨str "parse error"⟩), s)
  Do s _ _ v := { resp := some 200, err := none, v := v, state := s }

/-- The same client with a request builder that returns the nil request and
no error. -/
def silentBuilderClient : Client Unit Nat Nat where
  NewRequest s _ _ _ := ((none, none), s)
  Do s _ _ v := { resp := some 200, err := none, v := v, state := s }

/-- The instant 10000-01-01T00:00:00Z, the first of the year 10000. -/
def year10000 : time.Time :=
  { sec := 315537897600, nsec := 0, offset := 0, sec_range := by decide, nsec_range := by decide }

/-- The instant 2016-11-04T12:00:00.5Z, in a zone one hour east of UTC. -/
def sampleTime : time.Time :=
  { sec := 63613857600, nsec := 500000000, offset := 3600, sec_range := by decide,
    nsec_range := by decide }

/-! ## Helper lemmas: the shape of every operation -/

section Shape

variable {σ ρ R : Type}

/-- Every invocation either stops before the first call, which only
`ListConnectWebsitesSince` does and only when the rendering of the timestamp
fails, or makes one `NewRequest` and one `Do` on the request returned, and
returns what `Outcome.ofDo` says. -/
theorem invoke_shape (service : PluginService σ ρ R) (inv : Invocation) (s : σ) :
    (∃ dateSince err, inv = Invocation.ListConnectWebsitesSince dateSince ∧
        dateSince.UTC.MarshalText = .error err ∧
        invoke service inv s = (⟨none, none, some err⟩, s) ∧
        trace service inv s = []) ∨
    (∃ method urlStr body, wireContract inv = some (method, urlStr, body) ∧
        invoke service inv s =
          (Outcome.ofDo inv.target (service.exchange s method urlStr body inv.target).resp
            (service.exchange s method urlStr body inv.target).err
            (service.exchange s method urlStr body inv.target).v,
           (service.exchange s method urlStr body inv.target).state) ∧
        trace service inv s =
          [Call.NewRequest method urlStr body
             (service.client.NewRequest s method urlStr body).1.1
             (service.client.NewRequest s method urlStr body).1.2,
           Call.Do (service.client.NewRequest s method urlStr body).1.1 inv.target
             inv.target.fresh
             (service.exchange s method urlStr body inv.target).resp
             (service.exchange s method urlStr body inv.target).err
             (service.exchange s method urlStr body inv.target).v]) := by
  cases inv with
  | ListConnectWebsitesSince dateSince =>
    cases h : dateSince.UTC.MarshalText with
    | error err =>
      left
      refine ⟨dateSince, err, rfl, h, ?_, ?_⟩
      · simp only [invoke]
        unfold PluginService.ListConnectWebsitesSince
        simp only [h]
      · simp only [trace, invoke]
        unfold PluginService.ListConnectWebsitesSince
        simp only [h]
    | ok ts =>
      right
      refine ⟨str "GET", str "plugin/connect/websites/since?date_since=" ++ url.QueryEscape ts,
        Body.nil, by unfold wireContract; simp only [h], ?_, ?_⟩
      · simp only [invoke]
        unfold PluginService.ListConnectWebsitesSince
        simp only [h, PluginService.exchange, Outcome.ofDo, Target.fresh, Target.data]
        split <;> simp_all
      · simp only [trace, invoke]
        unfold PluginService.ListConnectWebsitesSince
        simp only [h, PluginService.exchange, PluginService.recorded, recording, Target.fresh]
        split <;> simp_all
  | CheckConnectSessionValidity =>
    right
    refine ⟨_, _, _, rfl, ?_, rfl⟩
    simp only [invoke, PluginService.CheckConnectSessionValidity, PluginService.exchange, Outcome.ofDo,
      Target.fresh, Target.data]
    split <;> simp_all
  | SubscribeWebsiteToPlugin websiteID pluginID =>
    right
    refine ⟨_, _, _, rfl, ?_, rfl⟩
    simp only [invoke, PluginService.SubscribeWebsiteToPlugin, PluginService.exchange, Outcome.ofDo,
      Target.fresh, Target.data]
    split <;> simp_all
  | UnsubscribePluginFromWebsite websiteID pluginID =>
    right
    refine ⟨_, _, _, rfl, ?_, rfl⟩
    simp only [invoke, PluginService.UnsubscribePluginFromWebsite, PluginService.exchange, Outcome.ofDo,
      Target.fresh, Target.data]
    split <;> simp_all
  | SaveSubscriptionSettings websiteID pluginID settings =>
    right
    refine ⟨_, _, _, rfl, ?_, rfl⟩
    simp only [invoke, PluginService.SaveSubscriptionSettings, PluginService.exchange, Outcome.ofDo,
      Target.fresh, Target.data]
    split <;> simp_all
  | ListAllConnectWebsites pageNumber =>
    right
    refine ⟨_, _, _, rfl, ?_, ?_⟩
    · simp only [invoke, PluginService.ListAllConnectWebsites, PluginService.exchange,
        Outcome.ofDo, Target.fresh, Target.data]
      split <;> simp_all
    · simp only [trace, invoke, PluginService.ListAllConnectWebsites, PluginService.exchange,
        PluginService.recorded, recording, Target.fresh]
      split <;> simp_all
  | ListAllActiveSubscriptions =>
    right
    refine ⟨_, _, _, rfl, ?_, ?_⟩
    · simp only [invoke, PluginService.ListAllActiveSubscriptions, PluginService.exchange,
        Outcome.ofDo, Target.fresh, Target.data]
      split <;> simp_all
    · simp only [trace, invoke, PluginService.ListAllActiveSubscriptions, PluginService.exchange,
        PluginService.recorded, recording, Target.fresh]
      split <;> simp_all
  | ListSubscriptionsForWebsite websiteID =>
    right
    refine ⟨_, _, _, rfl, ?_, ?_⟩
    · simp only [invoke, PluginService.ListSubscriptionsForWebsite, PluginService.exchange,
        Outcome.ofDo, Target.fresh, Target.data]
      split <;> simp_all
    · simp only [trace, invoke, PluginService.ListSubscriptionsForWebsite, PluginService.exchange,
        PluginService.recorded, recording, Target.fresh]
      split <;> simp_all
  | GetSubscriptionDetails websiteID pluginID =>
    right
    refine ⟨_, _, _, rfl, ?_, ?_⟩
    · simp only [invoke, PluginService.GetSubscriptionDetails, PluginService.exchange,
        Outcome.ofDo, Target.fresh, Target.data]
      split <;> simp_all
    · simp only [trace, invoke, PluginService.GetSubscriptionDetails, PluginService.exchange,
        PluginService.recorded, recording, Target.fresh]
      split <;> simp_all
  | GetSubscriptionSettings websiteID pluginID =>
    right
    refine ⟨_, _, _, rfl, ?_, ?_⟩
    · simp only [invoke, PluginService.GetSubscriptionSettings, PluginService.exchange,
        Outcome.ofDo, Target.fresh, Target.data]
      split <;> simp_all
    · simp only [trace, invoke, PluginService.GetSubscriptionSettings, PluginService.exchange,
        PluginService.recorded, recording, Target.fresh]
      split <;> simp_all

/-- The recording client is a faithful observer: an invocation on it returns
what it returns on the client itself, leaves the client in the same state, and
appends its calls to the log. -/
theorem invoke_recorded (service : PluginService σ ρ R) (inv : Invocation) (s : σ)
    (l : List (Call ρ R)) :
    invoke service.recorded inv (s, l) =
      ((invoke service inv s).1, ((invoke service inv s).2, l ++ trace service inv s)) := by
  cases inv with
  | ListConnectWebsitesSince dateSince =>
    simp only [trace, invoke]
    unfold PluginService.ListConnectWebsitesSince
    cases h : dateSince.UTC.MarshalText with
    | error err => simp
    | ok ts =>
      simp only [PluginService.recorded, recording]
      split <;> simp_all
  | CheckConnectSessionValidity =>
    simp [trace, invoke, PluginService.CheckConnectSessionValidity, PluginService.recorded,
      recording]
  | SubscribeWebsiteToPlugin websiteID pluginID =>
    simp [trace, invoke, PluginService.SubscribeWebsiteToPlugin, PluginService.recorded,
      recording]
  | UnsubscribePluginFromWebsite websiteID pluginID =>
    simp [trace, invoke, PluginService.UnsubscribePluginFromWebsite, PluginService.recorded,
      recording]
  | SaveSubscriptionSettings websiteID pluginID settings =>
    simp [trace, invoke, PluginService.SaveSubscriptionSettings, PluginService.recorded,
      recording]
  | ListAllConnectWebsites pageNumber =>
    simp only [trace, invoke, PluginService.ListAllConnectWebsites, PluginService.recorded,
      recording]
    split <;> simp_all
  | ListAllActiveSubscriptions =>
    simp only [trace, invoke, PluginService.ListAllActiveSubscriptions, PluginService.recorded,
      recording]
    split <;> simp_all
  | ListSubscriptionsForWebsite websiteID =>
    simp only [trace, invoke, PluginService.ListSubscriptionsForWebsite, PluginService.recorded,
      recording]
    split <;> simp_all
  | GetSubscriptionDetails websiteID pluginID =>
    simp only [trace, invoke, PluginService.GetSubscriptionDetails, PluginService.recorded,
      recording]
    split <;> simp_all
  | GetSubscriptionSettings websiteID pluginID =>
    simp only [trace, invoke, PluginService.GetSubscriptionSettings, PluginService.recorded,
      recording]
    split <;> simp_all

/-- A timestamp without a rendering has no line in the wire contract. -/
theorem wireContract_of_error (dateSince : time.Time) (err : GoError)
    (h : dateSince.UTC.MarshalText = .error err) :
    wireContract (Invocation.ListConnectWebsitesSince dateSince) = none := by
  unfold wireContract
  simp only [h]

/-- An invocation with a line in the wire contract makes one cycle on that
line. -/
theorem invoke_of_wireContract (service : PluginService σ ρ R) (inv : Invocation) (s : σ)
    (method urlStr : GoString) (body : Body)
    (h : wireContract inv = some (method, urlStr, body)) :
    invoke service inv s =
      (Outcome.ofDo inv.target (service.exchange s method urlStr body inv.target).resp
        (service.exchange s method urlStr body inv.target).err
        (service.exchange s method urlStr body inv.target).v,
       (service.exchange s method urlStr body inv.target).state) ∧
    trace service inv s =
      [Call.NewRequest method urlStr body
         (service.client.NewRequest s method urlStr body).1.1
         (service.client.NewRequest s method urlStr body).1.2,
       Call.Do (service.client.NewRequest s method urlStr body).1.1 inv.target
         inv.target.fresh
         (service.exchange s method urlStr body inv.target).resp
         (service.exchange s method urlStr body inv.target).err
         (service.exchange s method urlStr body inv.target).v] := by
  rcases invoke_shape service inv s with ⟨dateSince, err, hinv, hm, _, _⟩ | ⟨m, u, b, hw, hi, ht⟩
  · subst hinv
    rw [wireContract_of_error dateSince err hm] at h
    cases h
  · rw [hw] at h
    cases h
    exact ⟨hi, ht⟩

/-- An invocation without a line in the wire contract is a
`ListConnectWebsitesSince` whose timestamp has no rendering; it returns the
error of the rendering and makes no call. -/
theorem invoke_of_no_wireContract (service : PluginService σ ρ R) (inv : Invocation) (s : σ)
    (h : wireContract inv = none) :
    ∃ dateSince err, inv = Invocation.ListConnectWebsitesSince dateSince ∧
      dateSince.UTC.MarshalText = .error err ∧
      invoke service inv s = (⟨none, none, some err⟩, s) ∧
      trace service inv s = [] := by
  rcases invoke_shape service inv s with hl | ⟨m, u, b, hw, _, _⟩
  · exact hl
  · rw [hw] at h
    cases h

end Shape

/-! ## Error handling -/

section ErrorHandling

variable {σ ρ R : Type}

/-- C1, as stated, fails: on a client whose `Do` always returns the Result of
status 500 together with a non-nil error, `ListConnectWebsitesSince` on the
first instant of the year 10000 returns a nil Result and the error of the
rendering, not the Result and the error of `Do`. -/
theorem transport_error_passthrough_counterexample :
    (∀ (s : Unit) (req : Option Nat) (k : Target) (v : k.Pointee),
      (failingClient.Do s req k v).resp = some 500 ∧
        (failingClient.Do s req k v).err = some ⟨str "transport failure"⟩) ∧
    (invoke (⟨failingClient⟩ : PluginService Unit Nat Nat)
        (Invocation.ListConnectWebsitesSince year10000) ()).1.resp = none ∧
    (invoke (⟨failingClient⟩ : PluginService Unit Nat Nat)
        (Invocation.ListConnectWebsitesSince year10000) ()).1.err =
      some ⟨str "Time.MarshalText: year outside of range [0,9999]"⟩ ∧
    ¬ ((invoke (⟨failingClient⟩ : PluginService Unit Nat Nat)
          (Invocation.ListConnectWebsitesSince year10000) ()).1.resp = some 500 ∧
        (invoke (⟨failingClient⟩ : PluginService Unit Nat Nat)
          (Invocation.ListConnectWebsitesSince year10000) ()).1.err =
          some ⟨str "transport failure"⟩) := by
  refine ⟨fun _ _ _ _ => ⟨rfl, rfl⟩, rfl, rfl, ?_⟩
  intro h
  have h1 : (invoke (⟨failingClient⟩ : PluginService Unit Nat Nat)
      (Invocation.ListConnectWebsitesSince year10000) ()).1.resp = none := rfl
  rw [h1] at h
  exact absurd h.1 (by simp)

/-- C1, amended: for every operation, every input and every client whose `Do`
returns the Result `r` together with a non-nil error `e` (it is enough that
it does so on the fresh target of the operation, whatever it leaves in it),
the operation returns exactly `r` as its Result, exactly `e` as its error and
a nil payload, unless it is a `ListConnectWebsitesSince` whose timestamp has
no UTC rendering, which returns a nil payload, a nil Result and the error of
the rendering. -/
theorem transport_error_passthrough (service : PluginService σ ρ R) (inv : Invocation) (s : σ)
    (r : Option R) (e : GoError)
    (hDo : ∀ (s' : σ) (req : Option ρ),
      (service.client.Do s' req inv.target inv.target.fresh).resp = r ∧
        (service.client.Do s' req inv.target inv.target.fresh).err = some e) :
    (∃ dateSince err, inv = Invocation.ListConnectWebsitesSince dateSince ∧
        dateSince.UTC.MarshalText = .error err ∧
        (invoke service inv s).1 = { payload := none, resp := none, err := some err }) ∨
    ((∀ dateSince err, inv = Invocation.ListConnectWebsitesSince dateSince →
        dateSince.UTC.MarshalText ≠ .error err) ∧
      (invoke service inv s).1 = { payload := none, resp := r, err := some e }) := by
  rcases invoke_shape service inv s with ⟨dateSince, err, hinv, hm, hi, _⟩ | ⟨m, u, b, hw, hi, _⟩
  · exact Or.inl ⟨dateSince, err, hinv, hm, by rw [hi]⟩
  · refine Or.inr ⟨?_, ?_⟩
    · intro dateSince err hinv hm
      subst hinv
      rw [wireContract_of_error dateSince err hm] at hw
      cases hw
    · rw [hi]
      simp only [PluginService.exchange, (hDo _ _).1, (hDo _ _).2, Outcome.ofDo]

/-- A witness of C1: `GetSubscriptionDetails("w1", "p1")` on a client whose
`Do` writes a subscription into the envelope and then fails with status 500. -/
theorem transport_error_passthrough_witness :
    (∀ (s' : Unit) (req : Option Nat),
      (failingClient.Do s' req Target.PluginSubscriptionData { Data := none }).resp = some 500 ∧
        (failingClient.Do s' req Target.PluginSubscriptionData { Data := none }).err =
          some ⟨str "transport failure"⟩) ∧
    (failingClient.Do () (some 1) Target.PluginSubscriptionData { Data := none }).v =
      { Data := some sampleSubscription } ∧
    (invoke (⟨failingClient⟩ : PluginService Unit Nat Nat)
        (Invocation.GetSubscriptionDetails (str "w1") (str "p1")) ()).1 =
      { payload := none, resp := some 500, err := some ⟨str "transport failure"⟩ } :=
  ⟨fun _ _ => ⟨rfl, rfl⟩, rfl,
    (transport_error_passthrough (⟨failingClient⟩ : PluginService Unit Nat Nat)
      (Invocation.GetSubscriptionDetails (str "w1") (str "p1")) () (some 500)
      ⟨str "transport failure"⟩ (fun _ _ => ⟨rfl, rfl⟩)).elim
      (fun h => by
        obtain ⟨_, _, hinv, _, _⟩ := h
        cases hinv)
      (fun h => h.2)⟩

/-- C2: for every timestamp whose UTC rendering fails with error `err`,
`ListConnectWebsitesSince` returns a nil payload, a nil Result and `err`, and
makes no call on the client: the state of the client and its call log are
what they were. -/
theorem since_encoding_failure (service : PluginService σ ρ R) (dateSince : time.Time)
    (err : GoError) (s : σ) (l : List (Call ρ R))
    (h : dateSince.UTC.MarshalText = .error err) :
    service.ListConnectWebsitesSince dateSince s = ((none, none, some err), s) ∧
    service.recorded.ListConnectWebsitesSince dateSince (s, l) = ((none, none, some err), (s, l)) ∧
    trace service (Invocation.ListConnectWebsitesSince dateSince) s = [] := by
  refine ⟨?_, ?_, ?_⟩
  · unfold PluginService.ListConnectWebsitesSince
    simp only [h]
  · unfold PluginService.ListConnectWebsitesSince
    simp only [h]
  · simp only [trace, invoke]
    unfold PluginService.ListConnectWebsitesSince
    simp only [h]

/-- A witness of C2: the first instant of the year 10000. -/
theorem since_encoding_failure_witness :
    year10000.UTC.MarshalText =
      .error ⟨str "Time.MarshalText: year outside of range [0,9999]"⟩ ∧
    (⟨failingClient⟩ : PluginService Unit Nat Nat).ListConnectWebsitesSince year10000 () =
      ((none, none, some ⟨str "Time.MarshalText: year outside of range [0,9999]"⟩), ()) ∧
    (⟨failingClient⟩ : PluginService Unit Nat Nat).recorded.ListConnectWebsitesSince year10000
        ((), []) =
      ((none, none, some ⟨str "Time.MarshalText: year outside of range [0,9999]"⟩), ((), [])) ∧
    trace (⟨failingClient⟩ : PluginService Unit Nat Nat)
      (Invocation.ListConnectWebsitesSince year10000) () = [] :=
  ⟨rfl, since_encoding_failure _ year10000 _ () [] rfl⟩

end ErrorHandling

/-! ## The wire contract -/

section Wire

variable {σ ρ R : Type}

/-- The request lines of an invocation that has a line in the wire contract
are that line and nothing else. -/
theorem requestLines_of_wireContract (service : PluginService σ ρ R) (inv : Invocation) (s : σ)
    (line : GoString × GoString × Body) (h : wireContract inv = some line) :
    requestLines (trace service inv s) = [line] := by
  rcases invoke_shape service inv s with ⟨dateSince, err, hinv, hm, _, _⟩ | ⟨m, u, b, hw, _, ht⟩
  · subst hinv
    unfold wireContract at h
    simp only [hm] at h
    cases h
  · rw [ht]
    rw [hw] at h
    cases h
    rfl

/-- C3: every operation hands `NewRequest` exactly the method, path and body
of its row of the wire-contract table, `ts` being the query-escaped UTC
rendering of the timestamp (and whatever `ListConnectWebsitesSince` hands
`NewRequest`, on any timestamp, is that row for the rendering of the
timestamp); `SaveSubscriptionSettings("w1", "p1", v)` builds
`PATCH plugins/subscription/w1/p1/settings` with body `v` and returns no
payload. -/
theorem wire_contract (service : PluginService σ ρ R) (s : σ) :
    requestLines (trace service Invocation.CheckConnectSessionValidity s) =
      [(str "HEAD", str "plugin/connect/session", Body.nil)] ∧
    (∀ pageNumber, requestLines (trace service (Invocation.ListAllConnectWebsites pageNumber) s) =
      [(str "GET", str "plugin/connect/websites/all/" ++ fmt.fmtUint pageNumber, Body.nil)]) ∧
    (∀ dateSince ts, dateSince.UTC.MarshalText = .ok ts →
      requestLines (trace service (Invocation.ListConnectWebsitesSince dateSince) s) =
        [(str "GET", str "plugin/connect/websites/since?date_since=" ++ url.QueryEscape ts,
          Body.nil)]) ∧
    (∀ dateSince, ∀ line ∈ requestLines (trace service (Invocation.ListConnectWebsitesSince dateSince) s),
      ∃ ts, dateSince.UTC.MarshalText = .ok ts ∧
        line = (str "GET", str "plugin/connect/websites/since?date_since=" ++ url.QueryEscape ts,
          Body.nil)) ∧
    requestLines (trace service Invocation.ListAllActiveSubscriptions s) =
      [(str "GET", str "plugins/subscription", Body.nil)] ∧
    (∀ websiteID, requestLines (trace service (Invocation.ListSubscriptionsForWebsite websiteID) s) =
      [(str "GET", str "plugins/subscription/" ++ websiteID, Body.nil)]) ∧
    (∀ websiteID pluginID,
      requestLines (trace service (Invocation.GetSubscriptionDetails websiteID pluginID) s) =
        [(str "GET", str "plugins/subscription/" ++ websiteID ++ str "/" ++ pluginID,
          Body.nil)]) ∧
    (∀ websiteID pluginID,
      requestLines (trace service (Invocation.SubscribeWebsiteToPlugin websiteID pluginID) s) =
        [(str "PATCH", str "plugins/subscription/" ++ websiteID,
          Body.PluginSubscriptionCreate { PluginID := some pluginID })]) ∧
    (∀ websiteID pluginID,
      requestLines (trace service (Invocation.UnsubscribePluginFromWebsite websiteID pluginID) s) =
        [(str "DELETE", str "plugins/subscription/" ++ websiteID ++ str "/" ++ pluginID,
          Body.nil)]) ∧
    (∀ websiteID pluginID,
      requestLines (trace service (Invocation.GetSubscriptionSettings websiteID pluginID) s) =
        [(str "GET",
          str "plugins/subscription/" ++ websiteID ++ str "/" ++ pluginID ++ str "/settings",
          Body.nil)]) ∧
    (∀ websiteID pluginID settings,
      requestLines
          (trace service (Invocation.SaveSubscriptionSettings websiteID pluginID settings) s) =
        [(str "PATCH",
          str "plugins/subscription/" ++ websiteID ++ str "/" ++ pluginID ++ str "/settings",
          settings)]) ∧
    (∀ v,
      requestLines
          (trace service (Invocation.SaveSubscriptionSettings (str "w1") (str "p1") v) s) =
        [(str "PATCH", str "plugins/subscription/w1/p1/settings", v)] ∧
      (invoke service (Invocation.SaveSubscriptionSettings (str "w1") (str "p1") v) s).1.payload =
        none) := by
  refine ⟨?_, ?_, ?_, ?_, ?_, ?_, ?_, ?_, ?_, ?_, ?_, ?_⟩
  · exact requestLines_of_wireContract service _ s _ rfl
  · intro pageNumber
    exact requestLines_of_wireContract service _ s _ rfl
  · intro dateSince ts h
    refine requestLines_of_wireContract service _ s _ ?_
    unfold wireContract
    simp only [h]
  · intro dateSince line hline
    cases h : dateSince.UTC.MarshalText with
    | error err =>
      obtain ⟨_, _, _, _, _, ht⟩ :=
        invoke_of_no_wireContract service _ s (wireContract_of_error dateSince err h)
      rw [ht] at hline
      cases hline
    | ok ts =>
      have hw : wireContract (Invocation.ListConnectWebsitesSince dateSince) =
          some (str "GET",
            str "plugin/connect/websites/since?date_since=" ++ url.QueryEscape ts, Body.nil) := by
        unfold wireContract
        simp only [h]
      rw [requestLines_of_wireContract service _ s _ hw, List.mem_singleton] at hline
      exact ⟨ts, rfl, hline⟩
  · exact requestLines_of_wireContract service _ s _ rfl
  · intro websiteID
    exact requestLines_of_wireContract service _ s _ rfl
  · intro websiteID pluginID
    exact requestLines_of_wireContract service _ s _ rfl
  · intro websiteID pluginID
    exact requestLines_of_wireContract service _ s _ rfl
  · intro websiteID pluginID
    exact requestLines_of_wireContract service _ s _ rfl
  · intro websiteID pluginID
    exact requestLines_of_wireContract service _ s _ rfl
  · intro websiteID pluginID settings
    exact requestLines_of_wireContract service _ s _ rfl
  · intro v
    exact ⟨requestLines_of_wireContract service _ s _ rfl, rfl⟩

/-- A witness of C3: the row of `ListConnectWebsitesSince` at the instant
2016-11-04T12:00:00.5Z, whose rendering has two colons to escape. -/
theorem wire_contract_witness :
    sampleTime.UTC.MarshalText = .ok (str "2016-11-04T12:00:00.5Z") ∧
    requestLines (trace (⟨servingClient⟩ : PluginService Unit Nat Nat)
        (Invocation.ListConnectWebsitesSince sampleTime) ()) =
      [(str "GET", str "plugin/connect/websites/since?date_since=2016-11-04T12%3A00%3A00.5Z",
        Body.nil)] :=
  ⟨rfl, (wire_contract (⟨servingClient⟩ : PluginService Unit Nat Nat) ()).2.2.1 sampleTime
    (str "2016-11-04T12:00:00.5Z") rfl⟩

/-- A safe ASCII byte is below 128. -/
theorem json_htmlSafe_lt (b : Nat) (h : json.htmlSafe b = true) : b < 128 := by
  unfold json.htmlSafe at h
  simp only [Bool.and_eq_true, decide_eq_true_eq] at h
  omega

/-- The decoder takes at least one byte of a string that is not empty. -/
theorem json_DecodeRuneInString_pos (b : Nat) (rest : GoString) :
    1 ≤ (json.DecodeRuneInString (b :: rest)).2 := by
  simp only [json.DecodeRuneInString]
  split
  · split_ifs <;> simp
  · split_ifs <;> simp

/-- The loop of the string encoder does not depend on its bound once the
bound is the length of the string: the encoder ends on every string. -/
theorem json_appendStringLoop_fuel (f₁ : Nat) : ∀ (f₂ : Nat) (s : GoString),
    s.length ≤ f₁ → s.length ≤ f₂ →
    json.appendStringLoop f₁ s = json.appendStringLoop f₂ s := by
  induction f₁ with
  | zero =>
    intro f₂ s h₁ _
    have hs : s = [] := List.length_eq_zero.mp (by omega)
    subst hs
    cases f₂ <;> rfl
  | succ f₁ ih =>
    intro f₂ s h₁ h₂
    cases s with
    | nil => cases f₂ <;> rfl
    | cons b rest =>
      cases f₂ with
      | zero => simp at h₂
      | succ f₂ =>
        have hr₁ : rest.length ≤ f₁ := by simpa using h₁
        have hr₂ : rest.length ≤ f₂ := by simpa using h₂
        have hpos := json_DecodeRuneInString_pos b rest
        have hd₁ : ((b :: rest).drop (json.DecodeRuneInString (b :: rest)).2).length ≤ f₁ := by
          rw [List.length_drop, List.length_cons]
          omega
        have hd₂ : ((b :: rest).drop (json.DecodeRuneInString (b :: rest)).2).length ≤ f₂ := by
          rw [List.length_drop, List.length_cons]
          omega
        unfold json.appendStringLoop
        rw [ih f₂ rest hr₁ hr₂, ih f₂ _ hd₁ hd₂]

/-- A string of safe ASCII bytes is encoded as it is. -/
theorem json_appendStringLoop_safe (fuel : Nat) : ∀ s : GoString, s.length ≤ fuel →
    (∀ b ∈ s, json.htmlSafe b = true) → json.appendStringLoop fuel s = s := by
  induction fuel with
  | zero =>
    intro s h _
    have hs : s = [] := List.length_eq_zero.mp (by omega)
    subst hs
    rfl
  | succ fuel ih =>
    intro s h hsafe
    cases s with
    | nil => rfl
    | cons b rest =>
      have hb := hsafe b (List.mem_cons_self _ _)
      unfold json.appendStringLoop
      rw [if_pos (json_htmlSafe_lt b hb), if_pos hb,
        ih rest (by simpa using h) (fun c hc => hsafe c (List.mem_cons_of_mem _ hc))]

/-- C6, as stated, fails: the serialization does not carry every identifier.
The identifiers of the one byte 254 and of the one byte 255, neither of them
valid UTF-8, are both handed to `NewRequest` as they are and both serialize
to the object whose `plugin_id` is the escape of U+FFFD, so no reader of the
serialization gets every identifier back. -/
theorem subscribe_body_counterexample :
    requestLines (trace (⟨servingClient⟩ : PluginService Unit Nat Nat)
        (Invocation.SubscribeWebsiteToPlugin (str "w1") [255]) ()) =
      [(str "PATCH", str "plugins/subscription/w1",
        Body.PluginSubscriptionCreate { PluginID := some [255] })] ∧
    ({ PluginID := some [255] } : PluginSubscriptionCreate).MarshalJSON =
      str "\x7b\"plugin_id\":\"\\ufffd\"\x7d" ∧
    ({ PluginID := some [254] } : PluginSubscriptionCreate).MarshalJSON =
      ({ PluginID := some [255] } : PluginSubscriptionCreate).MarshalJSON ∧
    ¬ ∃ decode : GoString → GoString, ∀ pluginID : GoString,
      decode ({ PluginID := some pluginID } : PluginSubscriptionCreate).MarshalJSON =
        pluginID := by
  refine ⟨rfl, by decide, by decide, ?_⟩
  rintro ⟨decode, h⟩
  have h₁ := h [254]
  have h₂ := h [255]
  have he : ({ PluginID := some [254] } : PluginSubscriptionCreate).MarshalJSON =
      ({ PluginID := some [255] } : PluginSubscriptionCreate).MarshalJSON := by decide
  rw [he, h₂] at h₁
  exact absurd h₁ (by decide)

/-- C6, amended: for every websiteID and pluginID the body
`SubscribeWebsiteToPlugin` passes to `NewRequest` is a
`PluginSubscriptionCreate` whose field `PluginID` is present and equal to the
pluginID, also when that is the empty string, and it is the same whatever the
websiteID, which is in the path only. It serializes to the object with the
one key `plugin_id` and the JSON text of the pluginID, which is the pluginID
between double quotes when the pluginID has only ASCII bytes that JSON keeps
as they are (the printable ones but the double quote, the backslash, `<`, `>`
and `&`), as it is for the empty string; and the string encoder ends on every
pluginID. -/
theorem subscribe_body (service : PluginService σ ρ R) (s : σ) (websiteID pluginID : GoString) :
    requestLines (trace service (Invocation.SubscribeWebsiteToPlugin websiteID pluginID) s) =
      [(str "PATCH", str "plugins/subscription/" ++ websiteID,
        Body.PluginSubscriptionCreate { PluginID := some pluginID })] ∧
    ({ PluginID := some pluginID } : PluginSubscriptionCreate).PluginID = some pluginID ∧
    (∀ otherID : GoString,
      (requestLines (trace service (Invocation.SubscribeWebsiteToPlugin otherID pluginID) s)).map
          (fun line => line.2.2) =
        (requestLines
          (trace service (Invocation.SubscribeWebsiteToPlugin websiteID pluginID) s)).map
          (fun line => line.2.2)) ∧
    ({ PluginID := some pluginID } : PluginSubscriptionCreate).MarshalJSON =
      str "\x7b\"plugin_id\":" ++ json.encodeString pluginID ++ str "\x7d" ∧
    ((∀ b ∈ pluginID, json.htmlSafe b = true) →
      ({ PluginID := some pluginID } : PluginSubscriptionCreate).MarshalJSON =
        str "\x7b\"plugin_id\":\"" ++ pluginID ++ str "\"\x7d") ∧
    ({ PluginID := some [] } : PluginSubscriptionCreate).MarshalJSON =
      str "\x7b\"plugin_id\":\"\"\x7d" ∧
    (∀ fuel, pluginID.length ≤ fuel →
      json.appendStringLoop fuel pluginID = json.appendStringLoop pluginID.length pluginID) := by
  refine ⟨requestLines_of_wireContract service _ s _ rfl, rfl, ?_, rfl, ?_, rfl,
    fun fuel h => json_appendStringLoop_fuel fuel pluginID.length pluginID h (le_refl _)⟩
  · intro otherID
    rw [requestLines_of_wireContract service
        (Invocation.SubscribeWebsiteToPlugin otherID pluginID) s _ rfl,
      requestLines_of_wireContract service
        (Invocation.SubscribeWebsiteToPlugin websiteID pluginID) s _ rfl]
    rfl
  · intro hsafe
    show str "\x7b\"plugin_id\":" ++ json.encodeString pluginID ++ str "\x7d" = _
    unfold json.encodeString
    rw [json_appendStringLoop_safe pluginID.length pluginID (le_refl _) hsafe]
    simp [str]

/-- A witness of C6: the identifier `p1` on the website `w1`. -/
theorem subscribe_body_witness :
    (∀ b ∈ str "p1", json.htmlSafe b = true) ∧
    requestLines (trace (⟨servingClient⟩ : PluginService Unit Nat Nat)
        (Invocation.SubscribeWebsiteToPlugin (str "w1") (str "p1")) ()) =
      [(str "PATCH", str "plugins/subscription/w1",
        Body.PluginSubscriptionCreate { PluginID := some (str "p1") })] ∧
    ({ PluginID := some (str "p1") } : PluginSubscriptionCreate).MarshalJSON =
      str "\x7b\"plugin_id\":\"p1\"\x7d" :=
  ⟨by decide,
    (subscribe_body (⟨servingClient⟩ : PluginService Unit Nat Nat) () (str "w1") (str "p1")).1,
    (subscribe_body (⟨servingClient⟩ : PluginService Unit Nat Nat) () (str "w1")
      (str "p1")).2.2.2.2.1 (by decide)⟩

end Wire

/-! ## Request and response cycles -/

section Cycles

variable {σ ρ R : Type}

/-- C7, as stated, fails: on a client whose `Do` always succeeds with the
Result of status 200 and leaves a list in the envelope,
`ListConnectWebsitesSince` on the first instant of the year 10000 returns a
nil payload, a nil Result and an error. -/
theorem envelope_unwrapped_counterexample :
    (∀ (s : Unit) (req : Option Nat),
      (servingClient.Do s req Target.PluginConnectWebsitesSinceData { Data := none }).resp =
          some 200 ∧
        (servingClient.Do s req Target.PluginConnectWebsitesSinceData { Data := none }).err =
          none ∧
        (servingClient.Do s req Target.PluginConnectWebsitesSinceData { Data := none }).v.Data =
          some []) ∧
    (invoke (⟨servingClient⟩ : PluginService Unit Nat Nat)
        (Invocation.ListConnectWebsitesSince year10000) ()).1.payload = none ∧
    (invoke (⟨servingClient⟩ : PluginService Unit Nat Nat)
        (Invocation.ListConnectWebsitesSince year10000) ()).1.resp = none ∧
    (invoke (⟨servingClient⟩ : PluginService Unit Nat Nat)
        (Invocation.ListConnectWebsitesSince year10000) ()).1.err =
      some ⟨str "Time.MarshalText: year outside of range [0,9999]"⟩ ∧
    ¬ ((invoke (⟨servingClient⟩ : PluginService Unit Nat Nat)
          (Invocation.ListConnectWebsitesSince year10000) ()).1.payload = some [] ∧
        (invoke (⟨servingClient⟩ : PluginService Unit Nat Nat)
          (Invocation.ListConnectWebsitesSince year10000) ()).1.err = none) := by
  refine ⟨fun _ _ => ⟨rfl, rfl, rfl⟩, rfl, rfl, rfl, ?_⟩
  intro h
  have h1 : (invoke (⟨servingClient⟩ : PluginService Unit Nat Nat)
      (Invocation.ListConnectWebsitesSince year10000) ()).1.payload = none := rfl
  rw [h1] at h
  exact absurd h.1 (by simp)

/-- C7, amended: for every operation, every input and every client whose `Do`
on the freshly created envelope of the operation succeeds, returning the
Result `r` with a nil error and leaving `after` in the envelope, the payload
returned is exactly the `Data` of `after`, the Result is `r` and the error is
nil, so an envelope left without `Data` gives a nil payload with that Result
and no error; unless the operation is a `ListConnectWebsitesSince` whose
timestamp has no UTC rendering, which returns a nil payload, a nil Result and
the error of the rendering. -/
theorem envelope_unwrapped (service : PluginService σ ρ R) (inv : Invocation) (s : σ)
    (r : Option R) (after : inv.target.Pointee)
    (hDo : ∀ (s' : σ) (req : Option ρ),
      (service.client.Do s' req inv.target inv.target.fresh).resp = r ∧
        (service.client.Do s' req inv.target inv.target.fresh).err = none ∧
        (service.client.Do s' req inv.target inv.target.fresh).v = after) :
    (∃ dateSince err, inv = Invocation.ListConnectWebsitesSince dateSince ∧
        dateSince.UTC.MarshalText = .error err ∧
        (invoke service inv s).1 = { payload := none, resp := none, err := some err }) ∨
    ((∀ dateSince err, inv = Invocation.ListConnectWebsitesSince dateSince →
        dateSince.UTC.MarshalText ≠ .error err) ∧
      (invoke service inv s).1 =
        { payload := inv.target.data after, resp := r, err := none } ∧
      (inv.target.data after = none →
        (invoke service inv s).1 = { payload := none, resp := r, err := none })) := by
  rcases invoke_shape service inv s with ⟨dateSince, err, hinv, hm, hi, _⟩ | ⟨m, u, b, hw, hi, _⟩
  · exact Or.inl ⟨dateSince, err, hinv, hm, by rw [hi]⟩
  · have hout : (invoke service inv s).1 =
        { payload := inv.target.data after, resp := r, err := none } := by
      rw [hi]
      simp only [PluginService.exchange, (hDo _ _).1, (hDo _ _).2.1, (hDo _ _).2.2,
        Outcome.ofDo]
    refine Or.inr ⟨?_, hout, ?_⟩
    · intro dateSince err hinv hm
      subst hinv
      rw [wireContract_of_error dateSince err hm] at hw
      cases hw
    · intro hd
      rw [hout, hd]

/-- A witness of C7: `ListAllConnectWebsites(1)` against a server that
returns one website `w1` without settings, and `GetSubscriptionSettings`
against a server whose response has no inner field. -/
theorem envelope_unwrapped_witness :
    ((∀ (s' : Unit) (req : Option Nat),
      (servingClient.Do s' req Target.PluginConnectAllWebsitesData { Data := none }).resp =
          some 200 ∧
        (servingClient.Do s' req Target.PluginConnectAllWebsitesData { Data := none }).err =
          none ∧
        (servingClient.Do s' req Target.PluginConnectAllWebsitesData { Data := none }).v =
          { Data := some [{ WebsiteID := some (str "w1"), Settings := none }] }) ∧
    (invoke (⟨servingClient⟩ : PluginService Unit Nat Nat)
        (Invocation.ListAllConnectWebsites 1) ()).1 =
      { payload := some [{ WebsiteID := some (str "w1"), Settings := none }],
        resp := some 200, err := none }) ∧
    ((∀ (s' : Unit) (req : Option Nat),
      (emptyClient.Do s' req Target.PluginSubscriptionSettingsData { Data := none }).resp =
          some 200 ∧
        (emptyClient.Do s' req Target.PluginSubscriptionSettingsData { Data := none }).err =
          none ∧
        (emptyClient.Do s' req Target.PluginSubscriptionSettingsData { Data := none }).v =
          { Data := none }) ∧
    (invoke (⟨emptyClient⟩ : PluginService Unit Nat Nat)
        (Invocation.GetSubscriptionSettings (str "w1") (str "p1")) ()).1 =
      { payload := none, resp := some 200, err := none }) :=
  ⟨⟨fun _ _ => ⟨rfl, rfl, rfl⟩,
    (envelope_unwrapped (⟨servingClient⟩ : PluginService Unit Nat Nat)
      (Invocation.ListAllConnectWebsites 1) () (some 200)
      { Data := some [{ WebsiteID := some (str "w1"), Settings := none }] }
      (fun _ _ => ⟨rfl, rfl, rfl⟩)).elim
      (fun h => by
        obtain ⟨_, _, hinv, _, _⟩ := h
        cases hinv)
      (fun h => h.2.1)⟩,
   ⟨fun _ _ => ⟨rfl, rfl, rfl⟩,
    (envelope_unwrapped (⟨emptyClient⟩ : PluginService Unit Nat Nat)
      (Invocation.GetSubscriptionSettings (str "w1") (str "p1")) () (some 200)
      { Data := none } (fun _ _ => ⟨rfl, rfl, rfl⟩)).elim
      (fun h => by
        obtain ⟨_, _, hinv, _, _⟩ := h
        cases hinv)
      (fun h => h.2.2 rfl)⟩⟩

/-- C8, as stated, fails: `ListConnectWebsitesSince` on the first instant of
the year 10000 makes no call at all, so its calls are not one `NewRequest`
followed by one `Do`. -/
theorem one_cycle_counterexample :
    trace (⟨servingClient⟩ : PluginService Unit Nat Nat)
        (Invocation.ListConnectWebsitesSince year10000) () = [] ∧
    ¬ ∃ (method urlStr : GoString) (body : Body) (req : Option Nat) (nerr : Option GoError)
        (k : Target) (v after : k.Pointee) (resp : Option Nat) (err : Option GoError),
      trace (⟨servingClient⟩ : PluginService Unit Nat Nat)
          (Invocation.ListConnectWebsitesSince year10000) () =
        [Call.NewRequest method urlStr body req nerr, Call.Do req k v resp err after] := by
  have h : trace (⟨servingClient⟩ : PluginService Unit Nat Nat)
      (Invocation.ListConnectWebsitesSince year10000) () = [] := rfl
  refine ⟨h, ?_⟩
  rintro ⟨method, urlStr, body, req, nerr, k, v, after, resp, err, h2⟩
  rw [h] at h2
  cases h2

/-- C8, amended: on every client and from every log, an invocation appends to
the log exactly one `NewRequest` call followed by exactly one `Do` call on the
request that `NewRequest` returned, and nothing else, unless it is a
`ListConnectWebsitesSince` whose timestamp has no UTC rendering, which appends
nothing. -/
theorem one_cycle (service : PluginService σ ρ R) (inv : Invocation) (s : σ)
    (l : List (Call ρ R)) :
    (invoke service.recorded inv (s, l)).2.2 = l ++ trace service inv s ∧
    ((∃ dateSince err, inv = Invocation.ListConnectWebsitesSince dateSince ∧
        dateSince.UTC.MarshalText = .error err ∧ trace service inv s = []) ∨
     ((∀ dateSince err, inv = Invocation.ListConnectWebsitesSince dateSince →
        dateSince.UTC.MarshalText ≠ .error err) ∧
      ∃ method urlStr body,
        trace service inv s =
          [Call.NewRequest method urlStr body
             (service.client.NewRequest s method urlStr body).1.1
             (service.client.NewRequest s method urlStr body).1.2,
           Call.Do (service.client.NewRequest s method urlStr body).1.1 inv.target
             inv.target.fresh
             (service.exchange s method urlStr body inv.target).resp
             (service.exchange s method urlStr body inv.target).err
             (service.exchange s method urlStr body inv.target).v])) := by
  refine ⟨by rw [invoke_recorded], ?_⟩
  rcases invoke_shape service inv s with ⟨dateSince, err, hinv, hm, _, ht⟩ | ⟨m, u, b, hw, _, ht⟩
  · exact Or.inl ⟨dateSince, err, hinv, hm, ht⟩
  · refine Or.inr ⟨?_, m, u, b, ht⟩
    intro dateSince err hinv hm
    subst hinv
    rw [wireContract_of_error dateSince err hm] at hw
    cases hw

/-- C9, as stated, fails: `ListConnectWebsitesSince` on the first instant of
the year 10000 calls neither `NewRequest` nor `Do`, also on a client whose
request builder fails, and what it returns is the error of the rendering, not
a function of an outcome of `Do`. -/
theorem newRequest_error_discarded_counterexample :
    trace (⟨brokenBuilderClient⟩ : PluginService Unit Nat Nat)
        (Invocation.ListConnectWebsitesSince year10000) () = [] ∧
    (¬ ∃ (req : Option Nat) (k : Target) (v after : k.Pointee) (resp : Option Nat)
        (err : Option GoError),
      Call.Do req k v resp err after ∈
        trace (⟨brokenBuilderClient⟩ : PluginService Unit Nat Nat)
          (Invocation.ListConnectWebsitesSince year10000) ()) ∧
    (invoke (⟨brokenBuilderClient⟩ : PluginService Unit Nat Nat)
        (Invocation.ListConnectWebsitesSince year10000) ()).1 =
      { payload := none, resp := none,
        err := some ⟨str "Time.MarshalText: year outside of range [0,9999]"⟩ } := by
  have h : trace (⟨brokenBuilderClient⟩ : PluginService Unit Nat Nat)
      (Invocation.ListConnectWebsitesSince year10000) () = [] := rfl
  refine ⟨h, ?_, rfl⟩
  rintro ⟨req, k, v, after, resp, err, hmem⟩
  rw [h] at hmem
  cases hmem

/-- C9, amended: the error `NewRequest` reports is dropped. Two clients with
the same `Do` whose `NewRequest` return the same request and leave the same
state, and differ in the error only, give every invocation the same return
values and final state. And every invocation calls `NewRequest` once and
then, whatever request (possibly nil) and error that returned, calls `Do`
once on that request with a fresh target, makes no other call, and returns
the function `Outcome.ofDo` of what that `Do` returned; unless it is a
`ListConnectWebsitesSince` whose timestamp has no UTC rendering, which makes
no call and returns the error of the rendering. -/
theorem newRequest_error_discarded (service₁ service₂ : PluginService σ ρ R)
    (inv : Invocation) (s : σ)
    (hDo : service₁.client.Do = service₂.client.Do)
    (hNew : ∀ s method urlStr body,
      (service₁.client.NewRequest s method urlStr body).1.1 =
          (service₂.client.NewRequest s method urlStr body).1.1 ∧
        (service₁.client.NewRequest s method urlStr body).2 =
          (service₂.client.NewRequest s method urlStr body).2) :
    invoke service₁ inv s = invoke service₂ inv s ∧
    ((∃ dateSince err, inv = Invocation.ListConnectWebsitesSince dateSince ∧
        dateSince.UTC.MarshalText = .error err ∧
        trace service₁ inv s = [] ∧
        (invoke service₁ inv s).1 = { payload := none, resp := none, err := some err }) ∨
     ((∀ dateSince err, inv = Invocation.ListConnectWebsitesSince dateSince →
        dateSince.UTC.MarshalText ≠ .error err) ∧
      ∃ method urlStr body,
        trace service₁ inv s =
          [Call.NewRequest method urlStr body
             (service₁.client.NewRequest s method urlStr body).1.1
             (service₁.client.NewRequest s method urlStr body).1.2,
           Call.Do (service₁.client.NewRequest s method urlStr body).1.1 inv.target
             inv.target.fresh
             (service₁.client.Do (service₁.client.NewRequest s method urlStr body).2
               (service₁.client.NewRequest s method urlStr body).1.1 inv.target
               inv.target.fresh).resp
             (service₁.client.Do (service₁.client.NewRequest s method urlStr body).2
               (service₁.client.NewRequest s method urlStr body).1.1 inv.target
               inv.target.fresh).err
             (service₁.client.Do (service₁.client.NewRequest s method urlStr body).2
               (service₁.client.NewRequest s method urlStr body).1.1 inv.target
               inv.target.fresh).v] ∧
        (invoke service₁ inv s).1 =
          Outcome.ofDo inv.target
            (service₁.client.Do (service₁.client.NewRequest s method urlStr body).2
              (service₁.client.NewRequest s method urlStr body).1.1 inv.target
              inv.target.fresh).resp
            (service₁.client.Do (service₁.client.NewRequest s method urlStr body).2
              (service₁.client.NewRequest s method urlStr body).1.1 inv.target
              inv.target.fresh).err
            (service₁.client.Do (service₁.client.NewRequest s method urlStr body).2
              (service₁.client.NewRequest s method urlStr body).1.1 inv.target
              inv.target.fresh).v)) := by
  constructor
  · cases hw : wireContract inv with
    | none =>
      obtain ⟨d₁, e₁, hinv₁, hm₁, hi₁, _⟩ := invoke_of_no_wireContract service₁ inv s hw
      obtain ⟨d₂, e₂, hinv₂, hm₂, hi₂, _⟩ := invoke_of_no_wireContract service₂ inv s hw
      rw [hinv₁] at hinv₂
      cases hinv₂
      rw [hm₁] at hm₂
      cases hm₂
      rw [hi₁, hi₂]
    | some line =>
      obtain ⟨method, urlStr, body⟩ := line
      rw [(invoke_of_wireContract service₁ inv s method urlStr body hw).1,
        (invoke_of_wireContract service₂ inv s method urlStr body hw).1]
      simp only [PluginService.exchange, hDo, (hNew s method urlStr body).1,
        (hNew s method urlStr body).2]
  · rcases invoke_shape service₁ inv s with
      ⟨dateSince, err, hinv, hm, hi, ht⟩ | ⟨m, u, b, hw, hi, ht⟩
    · exact Or.inl ⟨dateSince, err, hinv, hm, ht, by rw [hi]⟩
    · refine Or.inr ⟨?_, m, u, b, ht, ?_⟩
      · intro dateSince err hinv hm
        subst hinv
        rw [wireContract_of_error dateSince err hm] at hw
        cases hw
      · rw [hi]
        rfl

/-- A witness of C9: a request builder that fails, returning a nil request
and an error, against one that returns the nil request without an error. -/
theorem newRequest_error_discarded_witness :
    brokenBuilderClient.Do = silentBuilderClient.Do ∧
    invoke (⟨brokenBuilderClient⟩ : PluginService Unit Nat Nat)
        (Invocation.SaveSubscriptionSettings (str "w1") (str "p1") Body.nil) () =
      invoke (⟨silentBuilderClient⟩ : PluginService Unit Nat Nat)
        (Invocation.SaveSubscriptionSettings (str "w1") (str "p1") Body.nil) () ∧
    trace (⟨brokenBuilderClient⟩ : PluginService Unit Nat Nat)
        (Invocation.SaveSubscriptionSettings (str "w1") (str "p1") Body.nil) () =
      [Call.NewRequest (str "PATCH") (str "plugins/subscription/w1/p1/settings") Body.nil none
         (some ⟨str "parse error"⟩),
       Call.Do none Target.nil () (some 200) none ()] :=
  ⟨rfl, (newRequest_error_discarded (⟨brokenBuilderClient⟩ : PluginService Unit Nat Nat)
      ⟨silentBuilderClient⟩ (Invocation.SaveSubscriptionSettings (str "w1") (str "p1") Body.nil)
      () rfl (fun _ _ _ _ => ⟨rfl, rfl⟩)).1, rfl⟩

end Cycles

/-! ## Paths -/

namespace fmt

theorem canonicalDecimal_of_lt (u : Nat) (h : u < 10) : canonicalDecimal u = [48 + u] := by
  unfold canonicalDecimal
  by_cases h0 : u = 0
  · simp [h0]
  · simp [h0, Nat.digits_of_lt 10 u h0 h]

theorem canonicalDecimal_step (u : Nat) (h : 10 ≤ u) :
    canonicalDecimal u = canonicalDecimal (u / 10) ++ [48 + u % 10] := by
  unfold canonicalDecimal
  have h0 : u ≠ 0 := by omega
  have h1 : u / 10 ≠ 0 := by omega
  rw [if_neg h0, if_neg h1, Nat.digits_def' (by norm_num) (by omega)]
  simp

theorem fmtIntegerLoop_eq (fuel : Nat) : ∀ (u : Nat) (buf : GoString), u ≤ fuel →
    fmtIntegerLoop fuel u buf = canonicalDecimal u ++ buf := by
  induction fuel with
  | zero =>
    intro u buf h
    have h0 : u = 0 := by omega
    subst h0
    rfl
  | succ fuel ih =>
    intro u buf h
    unfold fmtIntegerLoop
    by_cases hu : u ≥ 10
    · rw [if_pos hu, ih (u / 10) _ (by omega), canonicalDecimal_step u hu]
      simp
    · rw [if_neg hu, canonicalDecimal_of_lt u (by omega)]
      rfl

/-- The verb `%d` writes the canonical decimal rendering. -/
theorem fmtUint_eq (n : Nat) : fmtUint n = canonicalDecimal n := by
  unfold fmtUint
  rw [fmtIntegerLoop_eq n n [] (le_refl n)]
  simp

theorem canonicalDecimal_digit (n b : Nat) (h : b ∈ canonicalDecimal n) : 48 ≤ b ∧ b ≤ 57 := by
  unfold canonicalDecimal at h
  by_cases h0 : n = 0
  · simp [h0] at h
    omega
  · simp only [if_neg h0, List.mem_map, List.mem_reverse] at h
    obtain ⟨d, hd, rfl⟩ := h
    have := Nat.digits_lt_base (by norm_num : 1 < 10) hd
    omega

theorem canonicalDecimal_head (n : Nat) (h : n ≠ 0) : (canonicalDecimal n).head? ≠ some 48 := by
  unfold canonicalDecimal
  rw [if_neg h, List.head?_map, List.head?_reverse,
    List.getLast?_eq_getLast _ (Nat.digits_ne_nil_iff_ne_zero.mpr h)]
  have := Nat.getLast_digit_ne_zero 10 h
  simp only [Option.map_some', ne_eq, Option.some.injEq]
  omega

theorem canonicalDecimal_injective (m n : Nat) (h : canonicalDecimal m = canonicalDecimal n) :
    m = n := by
  by_cases hm : m = 0
  · by_cases hn : n = 0
    · rw [hm, hn]
    · exfalso
      have h1 := canonicalDecimal_head n hn
      rw [← h, hm] at h1
      exact h1 rfl
  · by_cases hn : n = 0
    · exfalso
      have h1 := canonicalDecimal_head m hm
      rw [h, hn] at h1
      exact h1 rfl
    · unfold canonicalDecimal at h
      rw [if_neg hm, if_neg hn] at h
      have hinj : Function.Injective (fun d : Nat => 48 + d) := fun a b hab => by
        simp only at hab
        omega
      have h2 := List.map_injective_iff.mpr hinj h
      exact Nat.digits.injective 10 (List.reverse_injective h2)

end fmt

/-- A byte that occurs in neither of two strings separates them uniquely. -/
theorem append_separator_inj (x : Nat) : ∀ (a c b d : GoString), x ∉ a → x ∉ c →
    a ++ x :: b = c ++ x :: d → a = c ∧ b = d := by
  intro a
  induction a with
  | nil =>
    intro c b d _ hc h
    cases c with
    | nil => simpa using h
    | cons y c =>
      simp only [List.nil_append, List.cons_append, List.cons.injEq] at h
      exact absurd (by rw [h.1]; exact List.mem_cons_self _ _) hc
  | cons y a ih =>
    intro c b d ha hc h
    cases c with
    | nil =>
      simp only [List.nil_append, List.cons_append, List.cons.injEq] at h
      exact absurd (by rw [h.1]; exact List.mem_cons_self _ _) ha
    | cons z c =>
      simp only [List.cons_append, List.cons.injEq] at h
      obtain ⟨hyz, ht⟩ := h
      have := ih c b d (fun hx => ha (List.mem_cons_of_mem _ hx))
        (fun hx => hc (List.mem_cons_of_mem _ hx)) ht
      exact ⟨by rw [hyz, this.1], this.2⟩

section Paths

variable {σ ρ R : Type}

/-- The path of an invocation with a line in the wire contract. -/
theorem paths_of_wireContract (service : PluginService σ ρ R) (inv : Invocation) (s : σ)
    (line : GoString × GoString × Body) (h : wireContract inv = some line) :
    paths service inv s = [line.2.1] := by
  unfold paths
  rw [requestLines_of_wireContract service inv s line h]
  rfl

/-- C4: for every page number `n` the path `ListAllConnectWebsites` builds is
`plugin/connect/websites/all/` followed by the canonical decimal rendering of
`n`: digits `0` to `9` only, so no sign, no leading zero unless `n = 0`, where
it is exactly `0`; and distinct page numbers give distinct paths. -/
theorem all_websites_path (service : PluginService σ ρ R) (s : σ) (n : Nat) :
    paths service (Invocation.ListAllConnectWebsites n) s =
      [str "plugin/connect/websites/all/" ++ fmt.canonicalDecimal n] ∧
    (∀ b ∈ fmt.canonicalDecimal n, 48 ≤ b ∧ b ≤ 57) ∧
    (n ≠ 0 → (fmt.canonicalDecimal n).head? ≠ some 48) ∧
    (n = 0 → fmt.canonicalDecimal n = str "0") ∧
    (∀ m, paths service (Invocation.ListAllConnectWebsites m) s =
        paths service (Invocation.ListAllConnectWebsites n) s → m = n) := by
  have hp : ∀ k, paths service (Invocation.ListAllConnectWebsites k) s =
      [str "plugin/connect/websites/all/" ++ fmt.canonicalDecimal k] := by
    intro k
    rw [paths_of_wireContract service (Invocation.ListAllConnectWebsites k) s _ rfl,
      fmt.fmtUint_eq]
  refine ⟨hp n, fmt.canonicalDecimal_digit n, fmt.canonicalDecimal_head n, ?_, ?_⟩
  · intro h0
    rw [h0]
    rfl
  · intro m h
    rw [hp m, hp n] at h
    exact fmt.canonicalDecimal_injective m n (List.append_cancel_left (List.cons.inj h).1)

/-- A witness of C4: the pages 7 and 120. -/
theorem all_websites_path_witness :
    paths (⟨servingClient⟩ : PluginService Unit Nat Nat)
        (Invocation.ListAllConnectWebsites 120) () =
      [str "plugin/connect/websites/all/120"] ∧
    (7 = 120 ∨ paths (⟨servingClient⟩ : PluginService Unit Nat Nat)
        (Invocation.ListAllConnectWebsites 7) () ≠
      paths (⟨servingClient⟩ : PluginService Unit Nat Nat)
        (Invocation.ListAllConnectWebsites 120) ()) :=
  ⟨rfl, Or.inr (fun h =>
    absurd ((all_websites_path (⟨servingClient⟩ : PluginService Unit Nat Nat) () 120).2.2.2.2 7 h)
      (by decide))⟩

/-- C10: identifiers go into the subscription paths as they are, so the path
of `GetSubscriptionDetails` determines the pair of identifiers when these
contain no `/` (it is enough that the website identifiers contain none), and
does not in general: `("a/b", "c")` and `("a", "b/c")` build the same path,
and `ListSubscriptionsForWebsite("a/b")` builds the path of
`GetSubscriptionDetails("a", "b")`. -/
theorem subscription_paths (service : PluginService σ ρ R) (s : σ) :
    (∀ w, paths service (Invocation.ListSubscriptionsForWebsite w) s =
      [str "plugins/subscription/" ++ w]) ∧
    (∀ w p, paths service (Invocation.GetSubscriptionDetails w p) s =
      [str "plugins/subscription/" ++ w ++ str "/" ++ p]) ∧
    (∀ w p, paths service (Invocation.UnsubscribePluginFromWebsite w p) s =
      [str "plugins/subscription/" ++ w ++ str "/" ++ p]) ∧
    (∀ w p, paths service (Invocation.GetSubscriptionSettings w p) s =
      [str "plugins/subscription/" ++ w ++ str "/" ++ p ++ str "/settings"]) ∧
    (∀ w₁ p₁ w₂ p₂ : GoString, 47 ∉ w₁ → 47 ∉ w₂ →
      paths service (Invocation.GetSubscriptionDetails w₁ p₁) s =
        paths service (Invocation.GetSubscriptionDetails w₂ p₂) s →
      w₁ = w₂ ∧ p₁ = p₂) ∧
    (paths service (Invocation.GetSubscriptionDetails (str "a/b") (str "c")) s =
        paths service (Invocation.GetSubscriptionDetails (str "a") (str "b/c")) s ∧
      (str "a/b", str "c") ≠ (str "a", str "b/c")) ∧
    paths service (Invocation.ListSubscriptionsForWebsite (str "a/b")) s =
      paths service (Invocation.GetSubscriptionDetails (str "a") (str "b")) s := by
  have hd : ∀ w p, paths service (Invocation.GetSubscriptionDetails w p) s =
      [str "plugins/subscription/" ++ w ++ str "/" ++ p] :=
    fun w p => paths_of_wireContract service (Invocation.GetSubscriptionDetails w p) s _ rfl
  have hl : ∀ w, paths service (Invocation.ListSubscriptionsForWebsite w) s =
      [str "plugins/subscription/" ++ w] :=
    fun w => paths_of_wireContract service (Invocation.ListSubscriptionsForWebsite w) s _ rfl
  refine ⟨hl, hd,
    fun w p =>
      paths_of_wireContract service (Invocation.UnsubscribePluginFromWebsite w p) s _ rfl,
    fun w p => paths_of_wireContract service (Invocation.GetSubscriptionSettings w p) s _ rfl,
    ?_, ⟨?_, by decide⟩, ?_⟩
  · intro w₁ p₁ w₂ p₂ h₁ h₂ h
    rw [hd, hd] at h
    have h3 := (List.cons.inj h).1
    rw [List.append_assoc, List.append_assoc, List.append_assoc, List.append_assoc] at h3
    exact append_separator_inj 47 w₁ w₂ p₁ p₂ h₁ h₂ (List.append_cancel_left h3)
  · rw [hd, hd]
    rfl
  · rw [hl, hd]
    rfl

/-- A witness of C10: the pairs `("w1", "p1")` and `("w2", "p1")`. -/
theorem subscription_paths_witness :
    (47 : Nat) ∉ str "w1" ∧ (47 : Nat) ∉ str "w2" ∧
    (paths (⟨servingClient⟩ : PluginService Unit Nat Nat)
        (Invocation.GetSubscriptionDetails (str "w1") (str "p1")) () =
      paths (⟨servingClient⟩ : PluginService Unit Nat Nat)
        (Invocation.GetSubscriptionDetails (str "w2") (str "p1")) () →
      str "w1" = str "w2" ∧ str "p1" = str "p1") :=
  ⟨by decide, by decide,
    (subscription_paths (⟨servingClient⟩ : PluginService Unit Nat Nat) ()).2.2.2.2.1
      (str "w1") (str "p1") (str "w2") (str "p1") (by decide) (by decide)⟩

end Paths

/-! ## The query escape round trip -/

namespace url

theorem hex_digit (i : Nat) (h : i < 16) :
    ishex (upperhex.getD i 0) = true ∧ unhex (upperhex.getD i 0) = i := by
  revert i
  decide

theorem QueryUnescape_plain (c : Nat) (rest : GoString) (h37 : c ≠ 37) (h43 : c ≠ 43) :
    QueryUnescape (c :: rest) =
      match QueryUnescape rest with
      | .ok t => .ok (c :: t)
      | .error e => .error e := by
  rw [QueryUnescape]
  all_goals first | exact h37 | exact h43 | (intros; simp_all)

theorem QueryUnescape_escapeByte (c : Nat) (rest t : GoString) (hc : c < 256)
    (h : QueryUnescape rest = .ok t) :
    QueryUnescape (escapeByte c ++ rest) = .ok (c :: t) := by
  unfold escapeByte
  by_cases h32 : c = 32
  · subst h32
    simp [QueryUnescape, h]
  · rw [if_neg h32]
    by_cases hs : shouldEscape c = true
    · rw [if_pos hs]
      have h1 := hex_digit (c / 16) (by omega)
      have h2 := hex_digit (c % 16) (by omega)
      simp only [List.cons_append, List.nil_append, QueryUnescape, h1.1, h2.1, h, Bool.and_self,
        if_true]
      rw [h1.2, h2.2, Nat.div_add_mod']
      simp [h]
    · rw [if_neg hs]
      have h37 : c ≠ 37 := by
        rintro rfl
        exact hs (by decide)
      have h43 : c ≠ 43 := by
        rintro rfl
        exact hs (by decide)
      rw [List.singleton_append, QueryUnescape_plain c rest h37 h43, h]

/-- Unescaping undoes escaping, on every string of bytes. -/
theorem QueryUnescape_QueryEscape (s : GoString) (h : ∀ b ∈ s, b < 256) :
    QueryUnescape (QueryEscape s) = .ok s := by
  induction s with
  | nil => rfl
  | cons c rest ih =>
    rw [QueryEscape]
    exact QueryUnescape_escapeByte c (QueryEscape rest) rest (h c (List.mem_cons_self _ _))
      (ih (fun b hb => h b (List.mem_cons_of_mem _ hb)))

end url

/-! ## Rendering and parsing of timestamps -/

namespace time

theorem fixed_length (w v : Nat) : (fixed w v).length = w := by
  induction w generalizing v with
  | zero => rfl
  | succ w ih => simp [fixed, ih]

theorem fixed_digit (w v b : Nat) (h : b ∈ fixed w v) : 48 ≤ b ∧ b ≤ 57 := by
  induction w generalizing v with
  | zero => simp [fixed] at h
  | succ w ih =>
    simp only [fixed, List.mem_append, List.mem_singleton] at h
    rcases h with h | h
    · exact ih _ h
    · omega

theorem fixed_zero (w : Nat) : fixed w 0 = List.replicate w 48 := by
  induction w with
  | zero => rfl
  | succ w ih =>
    simp only [fixed, Nat.zero_div, Nat.zero_mod, ih]
    rw [List.replicate_succ']

theorem pad_eq_fixed (w : Nat) : ∀ v, v < 10 ^ (w + 1) →
    List.replicate (w + 1 - (fmt.canonicalDecimal v).length) 48 ++ fmt.canonicalDecimal v =
      fixed (w + 1) v := by
  induction w with
  | zero =>
    intro v hv
    have hv' : v < 10 := by simpa using hv
    rw [fmt.canonicalDecimal_of_lt v hv']
    simp [fixed, Nat.mod_eq_of_lt hv']
  | succ w ih =>
    intro v hv
    by_cases h10 : v < 10
    · rw [fmt.canonicalDecimal_of_lt v h10]
      have hd : v / 10 = 0 := by omega
      rw [fixed, hd, fixed_zero, Nat.mod_eq_of_lt h10]
      simp
    · have hv10 : 10 ≤ v := by omega
      have hlt : v / 10 < 10 ^ (w + 1) := by
        rw [Nat.div_lt_iff_lt_mul (by norm_num)]
        rw [pow_succ] at hv
        exact hv
      rw [fmt.canonicalDecimal_step v hv10, fixed, ← ih (v / 10) hlt]
      simp only [List.length_append, List.length_singleton, List.append_assoc]
      congr 2
      omega

theorem appendInt_nat (b : GoString) (v w : Nat) (h : v < 10 ^ (w + 1)) :
    appendInt b (v : Int) (w + 1) = b ++ fixed (w + 1) v := by
  unfold appendInt
  have hneg : ¬ ((v : Int) < 0) := by omega
  simp only [hneg, if_false, Int.natAbs_ofNat, fmt.fmtUint_eq]
  rw [List.append_assoc, pad_eq_fixed w v h]

theorem canonicalDecimal_length (k : Nat) : ∀ v, 10 ^ k ≤ v →
    k + 1 ≤ (fmt.canonicalDecimal v).length := by
  induction k with
  | zero =>
    intro v hv
    by_cases h10 : v < 10
    · rw [fmt.canonicalDecimal_of_lt v h10]
      simp
    · rw [fmt.canonicalDecimal_step v (by omega)]
      simp
  | succ k ih =>
    intro v hv
    have h10 : 10 ≤ v := by
      calc 10 = 10 ^ 1 := by norm_num
        _ ≤ 10 ^ (k + 1) := Nat.pow_le_pow_right (by norm_num) (by omega)
        _ ≤ v := hv
    have hk : 10 ^ k ≤ v / 10 := by
      rw [Nat.le_div_iff_mul_le (by norm_num)]
      rw [pow_succ] at hv
      exact hv
    rw [fmt.canonicalDecimal_step v h10]
    have := ih (v / 10) hk
    simp only [List.length_append, List.length_singleton]
    omega

theorem padded_digit (w v b : Nat)
    (h : b ∈ List.replicate (w - (fmt.canonicalDecimal v).length) 48 ++ fmt.canonicalDecimal v) :
    48 ≤ b ∧ b ≤ 57 := by
  rw [List.mem_append] at h
  rcases h with h | h
  · rw [List.mem_replicate] at h
    omega
  · exact fmt.canonicalDecimal_digit v b h

theorem getD_digit (l rest : GoString) (i : Nat) (hi : i < l.length)
    (hl : ∀ b ∈ l, 48 ≤ b ∧ b ≤ 57) : (l ++ rest).getD i 0 ≠ 45 := by
  rw [List.getD_append l rest 0 i hi, List.getD_eq_getElem l 0 hi]
  have := hl _ (List.getElem_mem hi)
  omega

/-- The guard of `appendStrictRFC3339`: the byte after the first four is a
hyphen exactly when the year is in `[0, 9999]`. -/
theorem year_guard (year : Int) (rest : GoString)
    (h : (appendInt [] year 4 ++ 45 :: rest).getD 4 0 = 45) : 0 ≤ year ∧ year ≤ 9999 := by
  by_contra hcon
  unfold appendInt at h
  simp only [fmt.fmtUint_eq] at h
  by_cases hneg : year < 0
  · simp only [hneg, if_true, List.nil_append, List.append_assoc, List.singleton_append,
      List.cons_append, List.getD_cons_succ] at h
    rw [← List.append_assoc] at h
    refine getD_digit _ (45 :: rest) 3 ?_ (padded_digit 4 year.natAbs) h
    simp only [List.length_append, List.length_replicate]
    omega
  · have hbig : 10 ^ 4 ≤ year.natAbs := by
      have : (10 : Nat) ^ 4 = 10000 := by norm_num
      omega
    have hlen := canonicalDecimal_length 4 year.natAbs hbig
    simp only [hneg, if_false, List.nil_append] at h
    refine getD_digit _ (45 :: rest) 4 ?_ (padded_digit 4 year.natAbs) h
    simp only [List.length_append, List.length_replicate]
    omega

theorem trimRight_snoc (xs : GoString) (c x : Nat) :
    trimRight (xs ++ [x]) c = if x = c then trimRight xs c else xs ++ [x] := by
  unfold trimRight
  rw [List.reverse_append, List.reverse_singleton, List.singleton_append, List.dropWhile_cons]
  by_cases h : x = c
  · simp [h]
  · simp [h]

theorem trimRight_append (xs ys : GoString) (c : Nat) (h : ∃ a ∈ ys, a ≠ c) :
    trimRight (xs ++ ys) c = xs ++ trimRight ys c := by
  induction ys using List.reverseRecOn with
  | nil =>
    obtain ⟨a, ha, _⟩ := h
    simp at ha
  | append_singleton ys x ih =>
    rw [← List.append_assoc, trimRight_snoc, trimRight_snoc]
    by_cases hx : x = c
    · rw [if_pos hx, if_pos hx]
      apply ih
      obtain ⟨a, ha, hac⟩ := h
      rw [List.mem_append, List.mem_singleton] at ha
      rcases ha with ha | ha
      · exact ⟨a, ha, hac⟩
      · exact absurd (ha.symm ▸ hx) hac
    · rw [if_neg hx, if_neg hx, List.append_assoc]

/-- Cutting the trailing zeros of the digits of a positive number leaves the
digits of the number divided by a power of ten, the last of them not zero. -/
theorem trimRight_fixed (w : Nat) : ∀ n, 0 < n → n < 10 ^ w →
    ∃ k m, k < w ∧ trimRight (fixed w n) 48 = fixed (k + 1) m ∧ m < 10 ^ (k + 1) ∧
      m % 10 ≠ 0 ∧ m * 10 ^ (w - (k + 1)) = n := by
  induction w with
  | zero =>
    intro n h0 h
    simp at h
    omega
  | succ w ih =>
    intro n h0 h
    rw [fixed, trimRight_snoc]
    by_cases hz : n % 10 = 0
    · have h1 : 0 < n / 10 := by omega
      have h2 : n / 10 < 10 ^ w := by
        rw [Nat.div_lt_iff_lt_mul (by norm_num)]
        rw [pow_succ] at h
        exact h
      obtain ⟨k, m, hk, ht, hm, hm10, hmul⟩ := ih (n / 10) h1 h2
      refine ⟨k, m, by omega, ?_, hm, hm10, ?_⟩
      · rw [if_pos (by omega), ht]
      · have : w + 1 - (k + 1) = (w - (k + 1)) + 1 := by omega
        rw [this, pow_succ, ← Nat.mul_assoc, hmul]
        omega
    · refine ⟨w, n, by omega, ?_, h, hz, by simp⟩
      rw [if_neg (by omega), fixed]

theorem fixed_exists_ne (w : Nat) (n : Nat) (h0 : 0 < n) (h : n < 10 ^ w) :
    ∃ a ∈ fixed w n, a ≠ 48 := by
  obtain ⟨k, m, _, ht, _, hm10, _⟩ := trimRight_fixed w n h0 h
  have hmem : 48 + m % 10 ∈ trimRight (fixed w n) 48 := by
    rw [ht, fixed]
    simp
  refine ⟨48 + m % 10, ?_, by omega⟩
  unfold trimRight at hmem
  rw [List.mem_reverse] at hmem
  have := (List.dropWhile_sublist _).subset hmem
  exact List.mem_reverse.mp this

/-- What `appendNano` appends. -/
theorem appendNano_eq (b : GoString) (n : Nat) (h : n < 1000000000) :
    appendNano b n = b ++ fraction n := by
  unfold appendNano fraction
  by_cases h0 : n = 0
  · simp [h0]
  · have hlt : n < 10 ^ (8 + 1) := by norm_num; exact h
    have hpos : 0 < n := by omega
    rw [if_neg h0, if_neg h0]
    simp only
    rw [appendInt_nat (b ++ [46]) n 8 hlt, List.append_assoc,
      trimRight_append b ([46] ++ fixed (8 + 1) n) 48
        (by
          obtain ⟨a, ha, hne⟩ := fixed_exists_ne 9 n hpos hlt
          exact ⟨a, List.mem_append_right _ ha, hne⟩),
      trimRight_append [46] (fixed (8 + 1) n) 48 (fixed_exists_ne 9 n hpos hlt)]
    obtain ⟨k, m, _, ht, _, hm10, _⟩ := trimRight_fixed 9 n hpos hlt
    rw [ht, fixed]
    have hlast : (b ++ ([46] ++ (fixed k (m / 10) ++ [48 + m % 10]))).getLast? =
        some (48 + m % 10) := by
      rw [← List.append_assoc, ← List.append_assoc, List.getLast?_append]
      simp
    rw [hlast, if_neg (by simp; omega)]
    simp

theorem absDate_eq (abs : Nat) :
    absDate abs =
      ((absYear abs : Int) + absoluteZeroYear,
        (monthDay (isLeap ((absYear abs : Int) + absoluteZeroYear)) (absYday abs)).1,
        (monthDay (isLeap ((absYear abs : Int) + absoluteZeroYear)) (absYday abs)).2,
        absYday abs) := by
  unfold absDate monthDay
  simp only [absYear, absYday]
  split_ifs <;> rfl

set_option maxRecDepth 100000 in
theorem monthDay_spec : ∀ leap : Bool, ∀ yday, yday < 366 → (leap = false → yday < 365) →
    1 ≤ (monthDay leap yday).1 ∧ (monthDay leap yday).1 ≤ 12 ∧
    1 ≤ (monthDay leap yday).2 ∧
    (monthDay leap yday).2 ≤
      (if (monthDay leap yday).1 = 2 ∧ leap = true then 29
        else daysBefore.getD (monthDay leap yday).1 0 -
          daysBefore.getD ((monthDay leap yday).1 - 1) 0) ∧
    daysBefore.getD ((monthDay leap yday).1 - 1) 0 +
        (if leap = true ∧ (monthDay leap yday).1 ≥ 3 then 1 else 0) +
        ((monthDay leap yday).2 - 1) = yday := by
  decide

/-- The arithmetic of the cycles of 400, 100, 4 and 1 years: the year that
`absDate` computes splits back into the same cycles as `Date` splits it, the
days of the cycles and the day of the year add up to the day, and only a leap
year has a day 365. -/
theorem cycles (D n400 d1 q100 n100 d2 n4 d3 q1 n1 yd Y : Nat)
    (h1 : n400 = D / 146097) (h2 : d1 = D - 146097 * n400)
    (h3 : q100 = d1 / 36524) (h4 : n100 = q100 - q100 / 4) (h5 : d2 = d1 - 36524 * n100)
    (h6 : n4 = d2 / 1461) (h7 : d3 = d2 - 1461 * n4)
    (h8 : q1 = d3 / 365) (h9 : n1 = q1 - q1 / 4) (h10 : yd = d3 - 365 * n1)
    (hY : Y = 400 * n400 + 100 * n100 + 4 * n4 + n1) :
    146097 * (Y / 400) + 36524 * ((Y - 400 * (Y / 400)) / 100) +
        1461 * ((Y - 400 * (Y / 400) - 100 * ((Y - 400 * (Y / 400)) / 100)) / 4) +
        365 * (Y - 400 * (Y / 400) - 100 * ((Y - 400 * (Y / 400)) / 100) -
          4 * ((Y - 400 * (Y / 400) - 100 * ((Y - 400 * (Y / 400)) / 100)) / 4)) + yd = D ∧
    yd ≤ 365 ∧
    (yd = 365 → (Y + 1) % 4 = 0 ∧ ((Y + 1) % 100 ≠ 0 ∨ (Y + 1) % 400 = 0)) ∧
    Y ≤ D := by
  subst hY
  have b1 : d1 < 146097 := by omega
  have b2 : n100 ≤ 3 := by omega
  have b3 : d2 ≤ 36524 := by omega
  have b4 : n4 ≤ 24 := by omega
  have b5 : d3 ≤ 1460 := by omega
  have b6 : n1 ≤ 3 := by omega
  have e1 : (400 * n400 + 100 * n100 + 4 * n4 + n1) / 400 = n400 := by omega
  have e2 : (400 * n400 + 100 * n100 + 4 * n4 + n1 - 400 * n400) / 100 = n100 := by omega
  have e3 : (400 * n400 + 100 * n100 + 4 * n4 + n1 - 400 * n400 - 100 * n100) / 4 = n4 := by
    omega
  rw [e1, e2, e3]
  refine ⟨by omega, by omega, ?_, by omega⟩
  intro hyd
  have c1 : n1 = 3 := by omega
  have c2 : d3 = 1460 := by omega
  have c3 : n4 < 24 ∨ n100 = 3 := by omega
  omega

theorem absYear_spec (abs : Nat) :
    146097 * (absYear abs / 400) + 36524 * ((absYear abs - 400 * (absYear abs / 400)) / 100) +
        1461 * ((absYear abs - 400 * (absYear abs / 400) -
          100 * ((absYear abs - 400 * (absYear abs / 400)) / 100)) / 4) +
        365 * (absYear abs - 400 * (absYear abs / 400) -
          100 * ((absYear abs - 400 * (absYear abs / 400)) / 100) -
          4 * ((absYear abs - 400 * (absYear abs / 400) -
            100 * ((absYear abs - 400 * (absYear abs / 400)) / 100)) / 4)) + absYday abs =
      abs / 86400 ∧
    absYday abs ≤ 365 ∧
    (absYday abs = 365 → (absYear abs + 1) % 4 = 0 ∧
      ((absYear abs + 1) % 100 ≠ 0 ∨ (absYear abs + 1) % 400 = 0)) ∧
    absYear abs ≤ abs / 86400 :=
  cycles (abs / 86400) _ _ _ _ _ _ _ _ _ (absYday abs) (absYear abs) rfl rfl rfl rfl rfl rfl rfl
    rfl rfl rfl rfl

theorem isLeap_absYear (Y : Nat) :
    isLeap ((Y : Int) + absoluteZeroYear) =
      decide ((Y + 1) % 4 = 0 ∧ ((Y + 1) % 100 ≠ 0 ∨ (Y + 1) % 400 = 0)) := by
  unfold isLeap absoluteZeroYear
  rw [Bool.eq_iff_iff]
  simp only [Bool.and_eq_true, Bool.or_eq_true, decide_eq_true_eq, bne_iff_ne, ne_eq]
  omega

theorem absClock_spec (abs : Nat) :
    (absClock abs).1 < 24 ∧ (absClock abs).2.1 < 60 ∧ (absClock abs).2.2 < 60 ∧
    (absClock abs).1 * 3600 + (absClock abs).2.1 * 60 + (absClock abs).2.2 = abs % 86400 := by
  unfold absClock secondsPerDay secondsPerHour secondsPerMinute
  simp only
  omega

theorem norm_of_range (hi lo base : Int) (h0 : 0 ≤ lo) (h1 : lo < base) :
    norm hi lo base = (hi, lo) := by
  unfold norm
  rw [if_neg (not_lt.mpr h0)]
  simp only
  rw [if_neg (not_le.mpr h1)]

set_option maxHeartbeats 1000000 in
theorem Date_of_abs (abs : Nat) (habs : abs < 18446744073709551616) (ns : Nat)
    (hns : ns < 1000000000) (year : Int) (month day hour min sec : Nat)
    (hyear : year = (absYear abs : Int) + absoluteZeroYear)
    (hmonth : month = (monthDay (isLeap year) (absYday abs)).1)
    (hday : day = (monthDay (isLeap year) (absYday abs)).2)
    (hhour : hour = (absClock abs).1) (hmin : min = (absClock abs).2.1)
    (hsec : sec = (absClock abs).2.2) :
    (Date year month day hour min sec ns).sec = toInt64 ((abs : Int) + absoluteToInternal) ∧
    (Date year month day hour min sec ns).nsec = ns := by
  obtain ⟨hD, hyd, hleap365, hYle⟩ := absYear_spec abs
  obtain ⟨hh, hm, hs, hclock⟩ := absClock_spec abs
  simp only [← hhour, ← hmin, ← hsec] at hh hm hs hclock
  have hleapEq := isLeap_absYear (absYear abs)
  rw [← hyear] at hleapEq
  have hmd := monthDay_spec (isLeap year) (absYday abs) (by omega)
    (by
      intro hl
      by_contra hcon
      have h365 : absYday abs = 365 := by omega
      have := hleap365 h365
      rw [hleapEq] at hl
      simp only [decide_eq_false_iff_not] at hl
      exact hl this)
  simp only [← hmonth, ← hday] at hmd
  obtain ⟨hm1, hm12, hd1, _, hsum⟩ := hmd
  unfold Date
  simp only [norm_of_range year ((month : Int) - 1) 12 (by omega) (by omega),
    norm_of_range (sec : Int) (ns : Int) 1000000000 (by omega) (by omega),
    norm_of_range (min : Int) (sec : Int) 60 (by omega) (by omega),
    norm_of_range (hour : Int) (min : Int) 60 (by omega) (by omega),
    norm_of_range (day : Int) (hour : Int) 24 (by omega) (by omega)]
  refine ⟨?_, by simp⟩
  congr 1
  have hu : toUint64 (year - absoluteZeroYear) = absYear abs := by
    unfold toUint64
    rw [hyear]
    omega
  have hidx : ((month : Int) - 1 + 1 - 1).toNat = month - 1 := by omega
  have hcond : ((month : Int) - 1 + 1 ≥ 3) ↔ month ≥ 3 := by omega
  rw [hu, hidx]
  simp only [hcond]
  generalize daysBefore.getD (month - 1) 0 = db at hsum ⊢
  generalize absYear abs = Y at hD hYle ⊢
  generalize absYday abs = yd at hD hsum ⊢
  unfold daysPer400Years daysPer100Years daysPer4Years secondsPerDay secondsPerHour
    secondsPerMinute
  split_ifs at hsum ⊢ <;> push_cast <;> omega

set_option maxRecDepth 100000 in
theorem monthDay_le : ∀ leap : Bool, ∀ yday, yday < 366 → (monthDay leap yday).2 ≤ 31 := by
  decide

theorem appendInt_append (b : GoString) (x : Int) (w : Nat) :
    appendInt b x w = b ++ appendInt [] x w := by
  unfold appendInt
  by_cases h : x < 0
  · simp [h]
  · simp [h]

theorem appendInt_two (b : GoString) (v : Nat) (h : v < 100) :
    appendInt b (v : Int) 2 = b ++ fixed 2 v :=
  appendInt_nat b v 1 (by norm_num; exact h)

/-- The RFC 3339 text of a UTC time before the guards of
`appendStrictRFC3339`. -/
theorem appendFormatRFC3339_UTC (t : Time) :
    t.UTC.appendFormatRFC3339 [] =
      appendInt [] ((absYear t.UTC.abs : Int) + absoluteZeroYear) 4 ++
        (45 :: (fixed 2 (monthDay (isLeap ((absYear t.UTC.abs : Int) + absoluteZeroYear))
            (absYday t.UTC.abs)).1 ++
          (45 :: (fixed 2 (monthDay (isLeap ((absYear t.UTC.abs : Int) + absoluteZeroYear))
              (absYday t.UTC.abs)).2 ++
            (84 :: (fixed 2 (absClock t.UTC.abs).1 ++
              (58 :: (fixed 2 (absClock t.UTC.abs).2.1 ++
                (58 :: (fixed 2 (absClock t.UTC.abs).2.2 ++
                  (fraction t.nsec ++ [90]))))))))))) := by
  obtain ⟨_, hyd, hleap365, _⟩ := absYear_spec t.UTC.abs
  obtain ⟨hh, hm, hs, _⟩ := absClock_spec t.UTC.abs
  have hleapEq := isLeap_absYear (absYear t.UTC.abs)
  have hmd := monthDay_spec (isLeap ((absYear t.UTC.abs : Int) + absoluteZeroYear))
    (absYday t.UTC.abs) (by omega)
    (by
      intro hl
      by_contra hcon
      have h365 : absYday t.UTC.abs = 365 := by omega
      have := hleap365 h365
      rw [hleapEq] at hl
      simp only [decide_eq_false_iff_not] at hl
      exact hl this)
  have hdle := monthDay_le (isLeap ((absYear t.UTC.abs : Int) + absoluteZeroYear))
    (absYday t.UTC.abs) (by omega)
  obtain ⟨_, hm12, _, _, _⟩ := hmd
  unfold Time.appendFormatRFC3339
  have hoff : t.UTC.offset = 0 := rfl
  have hnsec : t.UTC.nsec = t.nsec := rfl
  simp only [absDate_eq, hoff, if_true, hnsec]
  rw [appendNano_eq _ _ t.nsec_range,
    appendInt_two _ (absClock t.UTC.abs).2.2 (by omega),
    appendInt_two _ (absClock t.UTC.abs).2.1 (by omega),
    appendInt_two _ (absClock t.UTC.abs).1 (by omega),
    appendInt_two _ _ (by omega),
    appendInt_two _ _ (by omega),
    appendInt_append]
  simp only [List.append_assoc, List.cons_append, List.nil_append, List.singleton_append]

theorem appendInt_four (b : GoString) (v : Nat) (h : v < 10000) :
    appendInt b (v : Int) 4 = b ++ fixed 4 v :=
  appendInt_nat b v 3 (by norm_num; exact h)

/-- The text `MarshalText` makes of a UTC time: the year has four digits and
the text is year, month, day, hour, minute and second at their fixed widths,
the fraction, and `Z`. -/
theorem MarshalText_UTC (t : Time) (ts : GoString) (h : t.UTC.MarshalText = .ok ts) :
    ∃ year : Nat, (year : Int) = (absYear t.UTC.abs : Int) + absoluteZeroYear ∧ year ≤ 9999 ∧
      ts = fixed 4 year ++
        (45 :: (fixed 2 (monthDay (isLeap (year : Int)) (absYday t.UTC.abs)).1 ++
          (45 :: (fixed 2 (monthDay (isLeap (year : Int)) (absYday t.UTC.abs)).2 ++
            (84 :: (fixed 2 (absClock t.UTC.abs).1 ++
              (58 :: (fixed 2 (absClock t.UTC.abs).2.1 ++
                (58 :: (fixed 2 (absClock t.UTC.abs).2.2 ++
                  (fraction t.nsec ++ [90]))))))))))) := by
  have hb := appendFormatRFC3339_UTC t
  unfold Time.MarshalText Time.appendStrictRFC3339 at h
  simp only at h
  by_cases hg : (t.UTC.appendFormatRFC3339 []).getD 4 0 = 45
  · have hy := year_guard ((absYear t.UTC.abs : Int) + absoluteZeroYear) _
      (by rw [← hb]; exact hg)
    obtain ⟨year, hyear⟩ : ∃ year : Nat,
        (year : Int) = (absYear t.UTC.abs : Int) + absoluteZeroYear :=
      ⟨((absYear t.UTC.abs : Int) + absoluteZeroYear).toNat, by omega⟩
    rw [← hyear] at hb hy
    refine ⟨year, hyear, by omega, ?_⟩
    rw [appendInt_four [] year (by omega), List.nil_append] at hb
    have hlast : (t.UTC.appendFormatRFC3339 []).getLast? = some 90 := by
      rw [hb]
      simp only [← List.cons_append, ← List.append_assoc]
      rw [List.getLast?_append]
      simp
    rw [if_neg (not_not.mpr hg), if_neg (not_not.mpr hlast)] at h
    simp only [Except.ok.injEq] at h
    rw [← h, hb]
  · rw [if_pos hg] at h
    cases h

theorem fixed_two (v : Nat) (h : v < 100) :
    ∃ a b, a ≤ 9 ∧ b ≤ 9 ∧ v = a * 10 + b ∧ fixed 2 v = [48 + a, 48 + b] :=
  ⟨v / 10 % 10, v % 10, by omega, by omega, by omega, by simp [fixed]⟩

theorem fixed_four (v : Nat) (h : v < 10000) :
    ∃ a b c d, a ≤ 9 ∧ b ≤ 9 ∧ c ≤ 9 ∧ d ≤ 9 ∧ v = ((a * 10 + b) * 10 + c) * 10 + d ∧
      fixed 4 v = [48 + a, 48 + b, 48 + c, 48 + d] :=
  ⟨v / 10 / 10 / 10 % 10, v / 10 / 10 % 10, v / 10 % 10, v % 10, by omega, by omega, by omega,
    by omega, by omega, by simp [fixed]⟩

theorem parseUint_two (a b lo hi : Nat) (ha : a ≤ 9) (hb : b ≤ 9) (hlo : lo ≤ a * 10 + b)
    (hhi : a * 10 + b ≤ hi) : parseUint [48 + a, 48 + b] lo hi = (a * 10 + b, true) := by
  unfold parseUint
  have h : parseUintLoop 0 [48 + a, 48 + b] = some (a * 10 + b) := by
    unfold parseUintLoop
    rw [if_neg (by omega)]
    unfold parseUintLoop
    rw [if_neg (by omega)]
    unfold parseUintLoop
    congr 1
    omega
  rw [h]
  simp only
  rw [if_neg (by omega)]

theorem parseUint_four (a b c d lo hi : Nat) (ha : a ≤ 9) (hb : b ≤ 9) (hc : c ≤ 9) (hd : d ≤ 9)
    (hlo : lo ≤ ((a * 10 + b) * 10 + c) * 10 + d) (hhi : ((a * 10 + b) * 10 + c) * 10 + d ≤ hi) :
    parseUint [48 + a, 48 + b, 48 + c, 48 + d] lo hi =
      (((a * 10 + b) * 10 + c) * 10 + d, true) := by
  unfold parseUint
  have h : parseUintLoop 0 [48 + a, 48 + b, 48 + c, 48 + d] =
      some (((a * 10 + b) * 10 + c) * 10 + d) := by
    unfold parseUintLoop
    rw [if_neg (by omega)]
    unfold parseUintLoop
    rw [if_neg (by omega)]
    unfold parseUintLoop
    rw [if_neg (by omega)]
    unfold parseUintLoop
    rw [if_neg (by omega)]
    unfold parseUintLoop
    congr 1
    omega
  rw [h]
  simp only
  rw [if_neg (by omega)]

theorem leadingInt_append (a : GoString) : ∀ (x y : Nat) (b : GoString),
    leadingInt x a = some (y, []) → leadingInt x (a ++ b) = leadingInt y b := by
  induction a with
  | nil =>
    intro x y b h
    simp only [leadingInt, Option.some.injEq, Prod.mk.injEq, and_true] at h
    rw [List.nil_append, h]
  | cons c a ih =>
    intro x y b h
    rw [leadingInt] at h
    rw [List.cons_append, leadingInt]
    split_ifs at h ⊢ with h1 h2 h3
    · simp at h
    · exact ih _ _ _ h

theorem leadingInt_fixed (k : Nat) : ∀ m x, m < 10 ^ k → x * 10 ^ k + m ≤ 10 ^ 18 →
    leadingInt x (fixed k m) = some (x * 10 ^ k + m, []) := by
  induction k with
  | zero =>
    intro m x hm _
    have : m = 0 := by simpa using hm
    subst this
    simp [fixed, leadingInt]
  | succ k ih =>
    intro m x hm hb
    have hm' : m / 10 < 10 ^ k := by
      rw [Nat.div_lt_iff_lt_mul (by norm_num)]
      rw [pow_succ] at hm
      exact hm
    have hpow : x * 10 ^ (k + 1) = x * 10 ^ k * 10 := by rw [pow_succ, Nat.mul_assoc]
    rw [hpow] at hb
    have e18 : (10 : Nat) ^ 18 = 1000000000000000000 := by norm_num
    rw [e18] at hb
    have hb' : x * 10 ^ k + m / 10 ≤ 10 ^ 18 := by
      rw [e18]
      omega
    rw [fixed, leadingInt_append _ _ _ _ (ih (m / 10) x hm' hb'), hpow]
    unfold leadingInt
    rw [if_neg (by omega), if_neg (by omega), if_neg (by omega)]
    unfold leadingInt
    congr 2
    omega

theorem fixed_succ_cons (k m : Nat) : ∃ c cs, fixed (k + 1) m = c :: cs ∧ 48 ≤ c ∧ c ≤ 57 ∧
    cs.length = k ∧ ∀ b ∈ cs, 48 ≤ b ∧ b ≤ 57 := by
  have hlen := fixed_length (k + 1) m
  cases hf : fixed (k + 1) m with
  | nil =>
    rw [hf] at hlen
    simp at hlen
  | cons c cs =>
    rw [hf] at hlen
    have hd := fixed_digit (k + 1) m
    rw [hf] at hd
    refine ⟨c, cs, rfl, (hd c (List.mem_cons_self _ _)).1, (hd c (List.mem_cons_self _ _)).2,
      by simpa using hlen, fun b hb => hd b (List.mem_cons_of_mem _ hb)⟩

theorem atoi_fixed (k m : Nat) (hm : m < 10 ^ (k + 1)) (hk : k + 1 ≤ 9) :
    atoi (fixed (k + 1) m) = some (m : Int) := by
  obtain ⟨c, cs, hf, hc1, hc2, _, _⟩ := fixed_succ_cons k m
  have hle : (10 : Nat) ^ (k + 1) ≤ 10 ^ 9 := Nat.pow_le_pow_right (by norm_num) hk
  have hli := leadingInt_fixed (k + 1) m 0 hm (by
    have e9 : (10 : Nat) ^ 9 = 1000000000 := by norm_num
    have e18 : (10 : Nat) ^ 18 = 1000000000000000000 := by norm_num
    omega)
  unfold atoi
  have hh : (fixed (k + 1) m).head? = some c := by rw [hf]; rfl
  have h45 : ¬ ((fixed (k + 1) m).head? = some 45) := by
    rw [hh]
    simp only [Option.some.injEq]
    omega
  have h43 : ¬ ((fixed (k + 1) m).head? = some 43) := by
    rw [hh]
    simp only [Option.some.injEq]
    omega
  simp only [h45, h43, or_self, if_false, hli, decide_False, Bool.false_eq_true]
  simp

theorem takeWhile_digits (cs rest : GoString) (x : Nat) (hx : ¬ (48 ≤ x ∧ x ≤ 57))
    (h : ∀ b ∈ cs, 48 ≤ b ∧ b ≤ 57) :
    (cs ++ x :: rest).takeWhile (fun c => decide (48 ≤ c) && decide (c ≤ 57)) = cs := by
  induction cs with
  | nil =>
    simp only [List.nil_append, List.takeWhile_cons]
    rw [if_neg]
    simp only [Bool.and_eq_true, decide_eq_true_eq]
    exact hx
  | cons c cs ih =>
    have hc := h c (List.mem_cons_self _ _)
    simp only [List.cons_append, List.takeWhile_cons]
    rw [if_pos (by simp [hc.1, hc.2]), ih (fun b hb => h b (List.mem_cons_of_mem _ hb))]

/-- The fraction of a positive number of nanoseconds, as the parser meets it:
a dot, a digit, more digits, and the parts of the parser on it. -/
theorem fraction_parse (nsec : Nat) (h0 : nsec ≠ 0) (h : nsec < 1000000000) :
    ((fraction nsec ++ [90]).length ≥ 2 && (fraction nsec ++ [90]).getD 0 0 = 46 &&
        isDigit (fraction nsec ++ [90]) 1) = true ∧
    parseNanoseconds (fraction nsec ++ [90])
        (2 + (((fraction nsec ++ [90]).drop 2).takeWhile
          (fun c => decide (48 ≤ c) && decide (c ≤ 57))).length) = (nsec : Int) ∧
    (fraction nsec ++ [90]).drop
        (2 + (((fraction nsec ++ [90]).drop 2).takeWhile
          (fun c => decide (48 ≤ c) && decide (c ≤ 57))).length) = [90] := by
  have hlt : nsec < 10 ^ 9 := by norm_num; exact h
  obtain ⟨k, m, hk, ht, hm, _, hmul⟩ := trimRight_fixed 9 nsec (by omega) hlt
  obtain ⟨c, cs, hf, hc1, hc2, hlen, hcs⟩ := fixed_succ_cons k m
  have hfr : fraction nsec ++ [90] = 46 :: c :: (cs ++ [90]) := by
    unfold fraction
    rw [if_neg h0, ht, hf]
    rfl
  have htw : ((cs ++ [90]).takeWhile (fun c => decide (48 ≤ c) && decide (c ≤ 57))) = cs :=
    takeWhile_digits cs [] 90 (by omega) hcs
  rw [hfr]
  simp only [List.drop_succ_cons, List.drop_zero, htw, hlen]
  refine ⟨?_, ?_, ?_⟩
  · simp [isDigit, hc1, hc2]
  · unfold parseNanoseconds
    have hnb : ¬ (2 + k > 10) := by omega
    simp only [List.getD_cons_zero, ne_eq, not_true_eq_false, false_and, if_false, hnb]
    have htake : ((46 :: c :: (cs ++ [90])).take (2 + k)).drop 1 = fixed (k + 1) m := by
      rw [hf, show 2 + k = (k + 1) + 1 by omega, List.take_succ_cons, List.drop_succ_cons,
        List.drop_zero, List.take_succ_cons, ← hlen, List.take_left]
    rw [htake, atoi_fixed k m hm (by omega)]
    simp only
    rw [if_neg (by omega)]
    have he : 10 - (2 + k) = 9 - (k + 1) := by omega
    rw [he, ← hmul]
    push_cast
    rfl
  · rw [show 2 + k = (k + 1) + 1 by omega, List.drop_succ_cons, List.drop_succ_cons, ← hlen,
      List.drop_left]

set_option maxHeartbeats 2000000 in
/-- The parser on the fixed-width text of a date and a clock in range. -/
theorem parseRFC3339_fixed (year month day hour min sec nsec : Nat) (hy : year ≤ 9999)
    (hmo1 : 1 ≤ month) (hmo2 : month ≤ 12) (hd1 : 1 ≤ day) (hd2 : day ≤ daysIn month year)
    (hd3 : day ≤ 31)
    (hh : hour ≤ 23) (hmi : min ≤ 59) (hs : sec ≤ 59) (hn : nsec < 1000000000) :
    parseRFC3339 (fixed 4 year ++ (45 :: (fixed 2 month ++ (45 :: (fixed 2 day ++
      (84 :: (fixed 2 hour ++ (58 :: (fixed 2 min ++ (58 :: (fixed 2 sec ++
        (fraction nsec ++ [90])))))))))))) =
      some (Date year month day hour min sec nsec) := by
  obtain ⟨y3, y2, y1, y0, by3, by2, by1, by0, hyv, hyf⟩ := fixed_four year (by omega)
  obtain ⟨m1, m0, bm1, bm0, hmv, hmf⟩ := fixed_two month (by omega)
  obtain ⟨d1, d0, bd1, bd0, hdv, hdf⟩ := fixed_two day (by omega)
  obtain ⟨h1, h0, bh1, bh0, hhv, hhf⟩ := fixed_two hour (by omega)
  obtain ⟨i1, i0, bi1, bi0, hiv, hif⟩ := fixed_two min (by omega)
  obtain ⟨s1, s0, bs1, bs0, hsv, hsf⟩ := fixed_two sec (by omega)
  rw [hyf, hmf, hdf, hhf, hif, hsf]
  have py := parseUint_four y3 y2 y1 y0 0 9999 by3 by2 by1 by0 (by omega) (by omega)
  have pm := parseUint_two m1 m0 1 12 bm1 bm0 (by omega) (by omega)
  have pd := parseUint_two d1 d0 1 (daysIn month year) bd1 bd0 (by omega) (by omega)
  have ph := parseUint_two h1 h0 0 23 bh1 bh0 (by omega) (by omega)
  have pi := parseUint_two i1 i0 0 59 bi1 bi0 (by omega) (by omega)
  have ps := parseUint_two s1 s0 0 59 bs1 bs0 (by omega) (by omega)
  rw [← hyv] at py
  rw [← hmv] at pm
  rw [← hdv] at pd
  rw [← hhv] at ph
  rw [← hiv] at pi
  rw [← hsv] at ps
  unfold parseRFC3339
  simp only [List.cons_append, List.nil_append, List.length_cons, slice, List.take_succ_cons,
    List.take_zero, List.drop_succ_cons, List.drop_zero, List.getD_cons_succ,
    List.getD_cons_zero, py, pm, pd, ph, pi, ps]
  rw [if_neg (by omega)]
  by_cases h0 : nsec = 0
  · subst h0
    simp [fraction, isDigit]
  · obtain ⟨f1, f2, f3⟩ := fraction_parse nsec h0 hn
    simp only [f1, f2, f3, if_true]
    simp

theorem mem_trimRight (b : GoString) (c x : Nat) (h : x ∈ trimRight b c) : x ∈ b := by
  unfold trimRight at h
  rw [List.mem_reverse] at h
  exact List.mem_reverse.mp ((List.dropWhile_sublist _).subset h)

theorem fraction_byte (n b : Nat) (h : b ∈ fraction n) : b < 256 := by
  unfold fraction at h
  split_ifs at h
  · simp at h
  · rw [List.mem_cons] at h
    rcases h with h | h
    · omega
    · have := fixed_digit 9 n b (mem_trimRight _ _ _ h)
      omega

/-- Every byte of the text of a UTC time is an ASCII character. -/
theorem MarshalText_byte (t : Time) (ts : GoString) (h : t.UTC.MarshalText = .ok ts) :
    ∀ b ∈ ts, b < 256 := by
  obtain ⟨year, _, _, hts⟩ := MarshalText_UTC t ts h
  intro b hb
  rw [hts] at hb
  simp only [List.mem_append, List.mem_cons, List.mem_singleton, List.not_mem_nil, or_false]
    at hb
  rcases hb with hb | hb | hb | hb | hb | hb | hb | hb | hb | hb | hb | hb | hb
  all_goals first
    | omega
    | exact Nat.lt_of_le_of_lt (fixed_digit _ _ _ hb).2 (by decide)
    | exact fraction_byte _ _ hb

/-- Parsing the text of a UTC time gives back the instant. -/
theorem parseRFC3339_MarshalText (t : Time) (ts : GoString) (h : t.UTC.MarshalText = .ok ts) :
    ∃ u, parseRFC3339 ts = some u ∧ u.sec = t.sec ∧ u.nsec = t.nsec := by
  obtain ⟨year, hyear, hy, hts⟩ := MarshalText_UTC t ts h
  obtain ⟨_, hyd, hleap365, _⟩ := absYear_spec t.UTC.abs
  obtain ⟨hh, hm, hs, _⟩ := absClock_spec t.UTC.abs
  have hleapEq := isLeap_absYear (absYear t.UTC.abs)
  rw [← hyear] at hleapEq
  have hmd := monthDay_spec (isLeap (year : Int)) (absYday t.UTC.abs) (by omega)
    (by
      intro hl
      by_contra hcon
      have h365 : absYday t.UTC.abs = 365 := by omega
      have := hleap365 h365
      rw [hleapEq] at hl
      simp only [decide_eq_false_iff_not] at hl
      exact hl this)
  have hdle := monthDay_le (isLeap (year : Int)) (absYday t.UTC.abs) (by omega)
  obtain ⟨hm1, hm12, hd1, hdin, _⟩ := hmd
  have habs : t.UTC.abs < 18446744073709551616 := by
    unfold Time.abs toUint64
    omega
  rw [hts, parseRFC3339_fixed year _ _ _ _ _ t.nsec hy hm1 hm12 hd1 hdin hdle (by omega)
    (by omega) (by omega) t.nsec_range]
  refine ⟨_, rfl, ?_⟩
  have hD := Date_of_abs t.UTC.abs habs t.nsec t.nsec_range (year : Int) _ _ _ _ _ hyear rfl rfl
    rfl rfl rfl
  rw [hD.1, hD.2]
  refine ⟨?_, rfl⟩
  have hr := t.sec_range
  have hsec : t.UTC.sec = t.sec := rfl
  have hoff : t.UTC.offset = 0 := rfl
  unfold toInt64 Time.abs toUint64 absoluteToInternal internalToAbsolute
  rw [hsec, hoff]
  omega

end time

namespace time

/-- A UTC time whose year is outside `[0, 9999]` has no rendering. -/
theorem MarshalText_year_outside (t : Time)
    (h : ¬ (0 ≤ (absYear t.UTC.abs : Int) + absoluteZeroYear ∧
      (absYear t.UTC.abs : Int) + absoluteZeroYear ≤ 9999)) :
    ∃ err, t.UTC.MarshalText = .error err := by
  cases hm : t.UTC.MarshalText with
  | error err => exact ⟨err, rfl⟩
  | ok ts =>
    obtain ⟨year, hyear, hy, _⟩ := MarshalText_UTC t ts hm
    exact absurd ⟨by omega, by omega⟩ h

end time

section Timestamp

variable {σ ρ R : Type}

/-- C5: for every timestamp `t` whose UTC rendering succeeds with text `ts`,
the path `ListConnectWebsitesSince` builds is
`plugin/connect/websites/since?date_since=` followed by the query escape of
exactly `ts`; unescaping the escaped value gives `ts` back; and parsing `ts`
gives the instant of `t`. -/
theorem since_path_roundtrip (service : PluginService σ ρ R) (s : σ) (t : time.Time)
    (ts : GoString) (h : t.UTC.MarshalText = .ok ts) :
    paths service (Invocation.ListConnectWebsitesSince t) s =
      [str "plugin/connect/websites/since?date_since=" ++ url.QueryEscape ts] ∧
    url.QueryUnescape (url.QueryEscape ts) = .ok ts ∧
    ∃ u, time.parseRFC3339 ts = some u ∧ u.Equal t := by
  refine ⟨?_, url.QueryUnescape_QueryEscape ts (time.MarshalText_byte t ts h), ?_⟩
  · have hw : wireContract (Invocation.ListConnectWebsitesSince t) =
        some (str "GET", str "plugin/connect/websites/since?date_since=" ++ url.QueryEscape ts,
          Body.nil) := by
      unfold wireContract
      simp only [h]
    rw [paths_of_wireContract service _ s _ hw]
  · obtain ⟨u, hu, hsec, hnsec⟩ := time.parseRFC3339_MarshalText t ts h
    exact ⟨u, hu, hsec, hnsec⟩

/-- A witness of C5: the instant 2016-11-04T12:00:00.5Z, given in a zone one
hour east of UTC. -/
theorem since_path_roundtrip_witness :
    sampleTime.UTC.MarshalText = .ok (str "2016-11-04T12:00:00.5Z") ∧
    paths (⟨servingClient⟩ : PluginService Unit Nat Nat)
        (Invocation.ListConnectWebsitesSince sampleTime) () =
      [str "plugin/connect/websites/since?date_since=2016-11-04T12%3A00%3A00.5Z"] ∧
    url.QueryUnescape (str "2016-11-04T12%3A00%3A00.5Z") = .ok (str "2016-11-04T12:00:00.5Z") ∧
    ∃ u, time.parseRFC3339 (str "2016-11-04T12:00:00.5Z") = some u ∧ u.Equal sampleTime :=
  ⟨rfl, since_path_roundtrip (⟨servingClient⟩ : PluginService Unit Nat Nat) () sampleTime
    (str "2016-11-04T12:00:00.5Z") rfl⟩

end Timestamp

end Crisp
